import Mathlib

/-!
A Lean model of the hotel tech-readiness analysis service (src/app.py):
the bounded site crawler, the vendor pattern detector, the canonical layer
routing, operator-confirmed system injection, and the /analyze pipeline,
together with theorems checking the specification's testable properties.

Numeric weights and confidences (Python floats) are modelled as rationals:
every operation the code performs on them (comparison, max, rounding to a
fixed number of decimal places) is exact on the rule values involved.
External collaborators (the HTTP client, the regular-expression engine, the
YAML rule file, and the scoring / benchmark / report modules that app.py
imports but that are not part of the analysed sources) are modelled as
explicit inputs, mirroring the dictionary shapes app.py consumes.
-/

namespace HotelTech

/-- Keep the first occurrence of each element, preserving order
(Python `dict.fromkeys` / the `if x not in acc: acc.append(x)` loops). -/
def dedupKeepFirst (l : List String) : List String :=
  l.foldl (fun acc x => if x ∈ acc then acc else acc ++ [x]) []

/-- Lower-case one ASCII character (our evidence strings are ASCII, so this
is exact for Python `str.lower`). -/
def charLower (c : Char) : Char :=
  if 'A' ≤ c ∧ c ≤ 'Z' then Char.ofNat (c.toNat + 32) else c

/-- Python `str.lower` (ASCII). -/
def strLower (s : String) : String := ⟨s.data.map charLower⟩

def isSpaceB (c : Char) : Bool := c = ' ' || c = '\t' || c = '\n' || c = '\r'

/-- Python `str.strip()` (whitespace characters occurring in this data). -/
def strTrim (s : String) : String :=
  ⟨((s.data.dropWhile isSpaceB).reverse.dropWhile isSpaceB).reverse⟩

/-- Python `s[:n]` (slicing counts characters). -/
def strTake (s : String) (n : ℕ) : String := ⟨s.data.take n⟩

/-- Python `s.startswith(p)`. -/
def strStarts (s p : String) : Bool := p.data.isPrefixOf s.data

/-- Python `sep.join(l)`. -/
def strJoin (sep : String) : List String → String
  | [] => ""
  | x :: xs => xs.foldl (fun acc y => acc ++ sep ++ y) x

/-- Lexicographic code-point order on strings (Python `<=` on `str`),
used to model `sorted`. -/
def listLeB : List Char → List Char → Bool
  | [], _ => true
  | _ :: _, [] => false
  | a :: as, b :: bs => if a = b then listLeB as bs else decide (a.toNat < b.toNat)

def strLeB (a b : String) : Bool := listLeB a.data b.data

def insertStr (x : String) : List String → List String
  | [] => [x]
  | y :: ys => if strLeB x y then x :: y :: ys else y :: insertStr x ys

/-- Insertion sort modelling Python `sorted` on lists of strings. -/
def sortStr (l : List String) : List String := l.foldr insertStr []

def subAt (needle : List Char) : List Char → Bool
  | [] => needle.isEmpty
  | c :: rest => needle.isPrefixOf (c :: rest) || subAt needle rest

/-- Python's substring test `needle in haystack`. -/
def strContains (haystack needle : String) : Bool :=
  subAt needle.data haystack.data

/-- Python `" ".join(l)`. -/
def joinSp (l : List String) : String := strJoin " " l

/-- Python `round` to `d` decimal places (round half to even), carried out
on rationals with integer arithmetic: `q * 10^d` is `m / den`, its floor is
`f`, and the leftover `r / den` is compared with one half. -/
def roundToInt (d : ℕ) (q : ℚ) : ℤ :=
  let m : ℤ := q.num * (10:ℤ)^d
  let den : ℤ := (q.den : ℤ)
  let f : ℤ := m.fdiv den
  let r : ℤ := m - f * den
  if 2*r < den then f else if den < 2*r then f + 1 else if f % 2 = 0 then f else f + 1

def roundTo (d : ℕ) (q : ℚ) : ℚ := mkRat (roundToInt d q) ((10:ℕ)^d)

/-- Python `max(a, b)` on numbers. -/
def pyMax (a b : ℚ) : ℚ := if a < b then b else a

/-- Python `round(x, 2)`. -/
def round2 : ℚ → ℚ := roundTo 2

/-- Python `round(x, 1)`. -/
def round1 : ℚ → ℚ := roundTo 1

/-- Association-list lookup (Python `dict.get`). -/
def lookupAssoc {α : Type} (m : List (String × α)) (k : String) : Option α :=
  (m.find? fun kv => kv.1 == k).map fun kv => kv.2

/-- Append `x` to the list stored under every entry keyed `k`
(Python `by_layer[layer].append(det)` on a dict whose keys are unique). -/
def appendAssoc {α : Type} (m : List (String × List α)) (k : String) (x : α) :
    List (String × List α) :=
  m.map fun kv => if kv.1 = k then (kv.1, kv.2 ++ [x]) else kv

/-- Python `d.setdefault(k, []).append(x)`. -/
def setdefaultAppend {α : Type} (m : List (String × List α)) (k : String) (x : α) :
    List (String × List α) :=
  if m.any fun kv => kv.1 == k then appendAssoc m k x else m ++ [(k, [x])]

/-- Python `d[k] = v` on an insertion-ordered dict. -/
def dictSet (m : List (String × String)) (k v : String) : List (String × String) :=
  if m.any fun kv => kv.1 == k then m.map (fun kv => if kv.1 = k then (kv.1, v) else kv)
  else m ++ [(k, v)]

/-- Python `dict.update` (last write wins per key, insertion order kept). -/
def dictUpdate (m upd : List (String × String)) : List (String × String) :=
  upd.foldl (fun acc kv => dictSet acc kv.1 kv.2) m

/-- `CANONICAL_LAYER_ORDER` from src/app.py. -/
def CANONICAL_LAYER_ORDER : List String :=
  ["Distribution", "Core Systems", "Guest Data & CRM", "Commercial Execution",
   "In-Venue Experience", "Operations", "Finance & Reporting"]

/-- `CATEGORY_TO_LAYER` from src/app.py. -/
def CATEGORY_TO_LAYER : List (String × String) :=
  [("distribution", "Distribution"), ("crs", "Distribution"),
   ("channel_manager", "Distribution"), ("channel manager", "Distribution"),
   ("ota", "Distribution"), ("metasearch", "Distribution"),
   ("booking engine", "Distribution"), ("booking_engine", "Distribution"),
   ("ibe", "Distribution"),
   ("pms", "Core Systems"), ("rms", "Core Systems"),
   ("property management", "Core Systems"), ("revenue management", "Core Systems"),
   ("core systems", "Core Systems"),
   ("crm", "Guest Data & CRM"), ("email", "Guest Data & CRM"),
   ("marketing automation", "Guest Data & CRM"), ("guest data", "Guest Data & CRM"),
   ("loyalty", "Guest Data & CRM"), ("cdp", "Guest Data & CRM"),
   ("tracking", "Commercial Execution"), ("analytics", "Commercial Execution"),
   ("attribution", "Commercial Execution"), ("tag manager", "Commercial Execution"),
   ("advertising", "Commercial Execution"), ("commercial execution", "Commercial Execution"),
   ("in-venue", "In-Venue Experience"), ("in venue", "In-Venue Experience"),
   ("guest messaging", "In-Venue Experience"), ("digital check-in", "In-Venue Experience"),
   ("upsell", "In-Venue Experience"), ("wifi", "In-Venue Experience"),
   ("keys", "In-Venue Experience"),
   ("operations", "Operations"), ("housekeeping", "Operations"),
   ("maintenance", "Operations"), ("task management", "Operations"),
   ("workforce", "Operations"),
   ("finance", "Finance & Reporting"), ("accounting", "Finance & Reporting"),
   ("bi", "Finance & Reporting"), ("reporting", "Finance & Reporting"),
   ("dashboard", "Finance & Reporting"), ("finance & reporting", "Finance & Reporting")]

def MAX_PAGES : ℕ := 16
def MAX_INTERNAL_LINKS : ℕ := 14
def MAX_REDIRECTS : ℕ := 6
def MAX_TEXT_CHARS : ℕ := 600000
def MAX_COOKIE_KEYS : ℕ := 80

/-- `_truncate` from src/app.py (`s[:limit]`). -/
def truncate (s : String) (limit : ℕ) : String := strTake s limit

/-- `label` from src/app.py (0.85 and 0.55 written as exact rationals). -/
def label (conf : ℚ) : String :=
  if conf ≥ mkRat 85 100 then "confirmed"
  else if conf ≥ mkRat 55 100 then "probable"
  else if conf > 0 then "possible"
  else "unknown"

/-- `map_category_to_layer` from src/app.py. -/
def map_category_to_layer (category : String) : String :=
  let c := strLower (strTrim category)
  if c = "" then "Commercial Execution"
  else if category ∈ CANONICAL_LAYER_ORDER then category
  else (lookupAssoc CATEGORY_TO_LAYER c).getD "Commercial Execution"

/-- One entry of a rule's `patterns` list (detectors.yaml is external input;
a missing or `None` field is `none`, and Python falsiness of `""` is handled
at use sites exactly as `app.py` does). `weight` models
`float(pattern.get("weight", 0) or 0)`. -/
structure Pattern where
  ptype : Option String := none
  value : Option String := none
  weight : ℚ := 0
deriving Repr, DecidableEq

/-- One product entry of the detector rule set. -/
structure Rule where
  vendor : Option String := none
  product : Option String := none
  category : Option String := none
  patterns : List Pattern := []
deriving Repr, DecidableEq

/-- A single vendor detection (the dicts built in `detect_tools_from_signals`
and `inject_confirmed_system`). -/
structure Detection where
  vendor : String
  product : String
  category : String
  confidence : ℚ
  label : String
  source : String
deriving Repr, DecidableEq

/-- Python `x or default` where `x` is an optional string. -/
def orDefault (o : Option String) (d : String) : String :=
  match o with
  | none => d
  | some s => if s = "" then d else s

/-- Python truthiness of `pattern.get(k)` for a string-valued key. -/
def truthy (o : Option String) : Bool := (o.getD "") ≠ ""

/-- The aggregated signals dictionary as consumed by
`detect_tools_from_signals` (keys `blob`, `asset_domains`, `asset_urls`,
`cookie_keys`, `headers`, `booking_flow.final_domain`,
`booking_flow.candidates`). -/
structure Signals where
  blob : String := ""
  asset_domains : List String := []
  asset_urls : List String := []
  cookie_keys : List String := []
  headers : List (String × String) := []
  booking_final : Option String := none
  booking_candidates : List String := []
deriving Repr, DecidableEq

/-- The evidence view `detect_tools_from_signals` matches patterns against:
the (deduplicated) asset domains and cookie keys, the lowered booking final
domain, and the combined searchable blob. -/
structure DetectView where
  asset_domains : List String
  cookie_keys : List String
  booking_final : String
  searchable_blob : String
deriving Repr, DecidableEq

/-- Builds the `DetectView` exactly as the body of
`detect_tools_from_signals` does before the rule loop.  The regular
expression engine (`safe_regex`) is supplied by the caller as `rx`. -/
def detectView (signals : Signals) : DetectView :=
  let blob := signals.blob
  let asset_domains := dedupKeepFirst signals.asset_domains
  let asset_urls := dedupKeepFirst signals.asset_urls
  let cookie_keys := dedupKeepFirst signals.cookie_keys
  let booking_final := strLower (signals.booking_final.getD "")
  let searchable_parts := [blob,
    joinSp (sortStr asset_domains),
    joinSp (sortStr asset_urls),
    joinSp (sortStr cookie_keys),
    joinSp (signals.headers.map fun kv => kv.1 ++ ":" ++ kv.2),
    booking_final,
    joinSp signals.booking_candidates]
  let searchable_blob := truncate (joinSp (searchable_parts.filter (· ≠ ""))) MAX_TEXT_CHARS
  ⟨asset_domains, cookie_keys, booking_final, searchable_blob⟩

/-- Whether one pattern whose gate (`type`/`value` truthy, `weight > 0`)
passed actually matches the evidence, by pattern type; `rx` models
`safe_regex` (a malformed regular expression simply yields `false`). -/
def patternHit (rx : String → String → Bool) (dv : DetectView) (ptype v : String) : Bool :=
  if ptype = "domain_contains" then
    (dv.asset_domains.any fun d => strContains d v) ||
      (dv.booking_final ≠ "" && strContains dv.booking_final v)
  else if ptype = "text_regex" then rx v dv.searchable_blob
  else if ptype = "text_contains" then strContains (strLower dv.searchable_blob) (strLower v)
  else if ptype = "cookie_contains" then
    dv.cookie_keys.any fun ck => strContains (strLower ck) (strLower v)
  else false

/-- Gate plus match for one pattern, as in the inner loop of
`detect_tools_from_signals`. -/
def patternCounts (rx : String → String → Bool) (dv : DetectView) (p : Pattern) : Bool :=
  truthy p.ptype && truthy p.value && p.weight > 0 &&
    patternHit rx dv (p.ptype.getD "") (p.value.getD "")

/-- One step of the pattern loop: `best = max(best, weight)` on a pattern
that passes its gate and matches, otherwise `best` unchanged. -/
def bestStep (rx : String → String → Bool) (dv : DetectView) (best : ℚ) (p : Pattern) : ℚ :=
  if patternCounts rx dv p then pyMax best p.weight else best

/-- The `best` accumulator of the pattern loop: starts at `0.0` and takes
`max(best, weight)` on every pattern that passes its gate and matches. -/
def ruleBest (rx : String → String → Bool) (dv : DetectView) (ps : List Pattern) : ℚ :=
  ps.foldl (bestStep rx dv) 0

/-- The detection dict emitted for a rule whose `best` is positive. -/
def mkDetection (r : Rule) (best : ℚ) : Detection :=
  { vendor := orDefault r.vendor "Unknown"
    product := orDefault r.product "Unknown"
    category := orDefault r.category "Unknown"
    confidence := round2 best
    label := label best
    source := "public_signal" }

/-- One iteration of the rule loop of `detect_tools_from_signals`,
threading the `(detections, by_layer)` state. -/
def detectStep (rx : String → String → Bool) (dv : DetectView)
    (st : List Detection × List (String × List Detection)) (r : Rule) :
    List Detection × List (String × List Detection) :=
  let best := ruleBest rx dv r.patterns
  if best > 0 then
    let det := mkDetection r best
    let layer0 := map_category_to_layer det.category
    let layer := if st.2.any (fun kv => kv.1 == layer0) then layer0 else "Commercial Execution"
    (st.1 ++ [det], appendAssoc st.2 layer det)
  else st

/-- `detect_tools_from_signals` from src/app.py.  The rule set (loaded from
detectors.yaml by `load_detectors`, external storage) and the regular
expression engine are passed in; the result is the pair
`(detections, by_layer)`. -/
def detect_tools_from_signals (rx : String → String → Bool) (detectors : List Rule)
    (signals : Signals) : List Detection × List (String × List Detection) :=
  let dv := detectView signals
  detectors.foldl (detectStep rx dv)
    ([], CANONICAL_LAYER_ORDER.map fun l => (l, ([] : List Detection)))

/-- `inject_confirmed_system` from src/app.py: user-confirmed systems are
appended as detections with confidence 0.99, label "confirmed" and source
"customer_confirmed"; a missing or empty vendor injects nothing. -/
def inject_confirmed_system (by_layer : List (String × List Detection))
    (detections : List Detection) (vendor : Option String)
    (layer category product : String) :
    List (String × List Detection) × List Detection :=
  if truthy vendor then
    let det : Detection :=
      { vendor := vendor.getD "", product := product, category := category
        confidence := mkRat 99 100, label := "confirmed", source := "customer_confirmed" }
    (setdefaultAppend by_layer layer det, detections ++ [det])
  else (by_layer, detections)

/-- Split a character list at the first occurrence of `sub`. -/
def findSplit (sub : List Char) : List Char → Option (List Char × List Char)
  | [] => none
  | c :: cs =>
    if sub.isPrefixOf (c :: cs) then some ([], (c :: cs).drop sub.length)
    else (findSplit sub cs).map fun p => (c :: p.1, p.2)

/-- Split a URL at the first "://"; models urllib.parse scheme detection for
the http(s) URLs this service handles. -/
def splitScheme (u : String) : Option (String × String) :=
  (findSplit "://".data u.data).map fun p => (⟨p.1⟩, ⟨p.2⟩)

def schemeOf (u : String) : String := ((splitScheme u).map fun p => p.1).getD ""

/-- `urlparse(u).netloc` for scheme-qualified URLs. -/
def hostOf (u : String) : String :=
  match splitScheme u with
  | none => ""
  | some p => ⟨p.2.data.takeWhile (· ≠ '/')⟩

/-- The `f"{parsed.scheme}://{parsed.netloc}"` base computed by the crawl. -/
def originOf (u : String) : String := schemeOf u ++ "://" ++ hostOf u

/-- `normalise_url` from src/app.py. -/
def normalise_url (url : String) : String :=
  let u := strTrim url
  if u = "" then u
  else if (splitScheme u).isSome then u
  else "https://" ++ u

/-- Model of stdlib `urljoin`, exact for the absolute and root-relative
URLs exercised by this service. -/
def urljoin (base rel : String) : String :=
  if rel = "" then base
  else if (splitScheme rel).isSome then rel
  else if strStarts rel "/" then originOf base ++ rel
  else originOf base ++ "/" ++ rel

/-- One element BeautifulSoup would report; an attribute value "" models an
absent attribute, matching the `(tag.get(attr) or "")` reads in app.py. -/
structure Tag where
  name : String
  href : String := ""
  src : String := ""
  action : String := ""
  text : String := ""
deriving Repr, DecidableEq

/-- A parsed HTML document: `raw` is the page source string (fed into the
combined text blob) and `tags` the elements in document order. -/
structure Html where
  raw : String := ""
  tags : List Tag := []
deriving Repr, DecidableEq

/-- `soup.get_text(" ", strip=True)`: visible text joined by spaces. -/
def getText (h : Html) : String := joinSp ((h.tags.map Tag.text).filter (· ≠ ""))

/-- The `_good` predicate inside `_internal_links_from_soup`. -/
def goodHref (href : String) : Bool :=
  href ≠ "" && !(strStarts href "#") && !(strStarts href "mailto:") &&
    !(strStarts href "tel:") && !(strStarts (strLower href) "javascript:")

/-- Anchor loop of `_internal_links_from_soup`: same-host absolute links,
deduplicated preserving order, stopping at `limit`. -/
def linksLoop (base_url base_host : String) (limit : ℕ) : List Tag → List String → List String
  | [], acc => acc
  | t :: ts, acc =>
    if t.name = "a" then
      let href := strTrim t.href
      if goodHref href then
        let absU := urljoin base_url href
        if strLower (hostOf absU) = base_host then
          let acc2 := if absU ∈ acc then acc else acc ++ [absU]
          if limit ≤ acc2.length then acc2 else linksLoop base_url base_host limit ts acc2
        else linksLoop base_url base_host limit ts acc
      else linksLoop base_url base_host limit ts acc
    else linksLoop base_url base_host limit ts acc

/-- `_internal_links_from_soup` from src/app.py. -/
def internalLinksFromSoup (base_url : String) (h : Html) (limit : ℕ) : List String :=
  linksLoop base_url (strLower (hostOf base_url)) limit h.tags []

/-- `_BOOKING_KEYWORDS` from src/app.py. -/
def BOOKING_KEYWORDS : List String :=
  ["book", "booking", "reserve", "reservation", "availability", "rooms",
   "check availability", "offers", "rates"]

def bkAny (s : String) : Bool := BOOKING_KEYWORDS.any fun k => strContains s k

/-- `_find_booking_candidates` from src/app.py: anchors whose text or href
mention a booking keyword, keyword-bearing form actions and iframe sources;
deduplicated, first 6. -/
def findBookingCandidates (base_url : String) (h : Html) : List String :=
  let fromAnchors := h.tags.filterMap fun t =>
    if t.name = "a" then
      let href := strTrim t.href
      if href ≠ "" && (bkAny (strLower t.text) || bkAny (strLower href)) then
        some (urljoin base_url href)
      else none
    else none
  let fromForms := h.tags.filterMap fun t =>
    if t.name = "form" then
      let action := strTrim t.action
      if action ≠ "" && bkAny (strLower action) then some (urljoin base_url action) else none
    else none
  let fromIframes := h.tags.filterMap fun t =>
    if t.name = "iframe" then
      let src := strTrim t.src
      if src ≠ "" && bkAny (strLower src) then some (urljoin base_url src) else none
    else none
  (dedupKeepFirst (fromAnchors ++ fromForms ++ fromIframes)).take 6

/-- Outcome of one HTTP GET, as observed through the httpx client: either a
response (with final URL after redirects, status, content type, parsed body
when the payload is parseable text, headers, cookies and redirect history)
or one of the exception classes `_safe_get` distinguishes. -/
inductive FetchOutcome where
  | ok (final_url : String) (status : ℤ) (content_type : String) (body : Option Html)
      (headers : List (String × String)) (cookies : List (String × String))
      (history : List String)
  | timeout
  | requestError (msg : String)
  | unexpectedError (msg : String)
deriving Repr, DecidableEq

/-- The network as seen by one crawl: what each GET returns. -/
abbrev Network := String → FetchOutcome

/-- Whether a GET raised (timeout / transport error / unexpected error) —
as opposed to returning a response of any HTTP status code. -/
def FetchOutcome.isFailure : FetchOutcome → Bool
  | .ok _ _ _ _ _ _ _ => false
  | _ => true

/-- `PageResult` from src/app.py; `html = none` models the empty string. -/
structure PageResult where
  url : String
  status_code : ℤ
  content_type : String
  html : Option Html
  headers : List (String × String)
  cookies : List (String × String)
deriving Repr, DecidableEq

/-- The error dicts `_safe_get` and the endpoints build. -/
structure ErrDict where
  etype : String
  message : String
  url : String := ""
deriving Repr, DecidableEq

def ALLOWED_HEADER_KEYS : List String :=
  ["server", "x-powered-by", "via", "x-cache", "cf-ray", "x-amz-cf-id"]

/-- The content types for which `_safe_get` keeps the body. -/
def htmlContentType (ct : String) : Bool :=
  strContains ct "text/html" || strContains ct "application/xhtml+xml" ||
    strContains ct "text/plain" || strContains ct "application/xml" ||
    strContains ct "text/xml"

/-- `_safe_get` from src/app.py: a response of any status code becomes a
`PageResult` (body kept only for text-like content types, headers
allow-listed, cookies capped); an exception becomes an error dict and is
never re-raised. -/
def safe_get (net : Network) (url : String) : Except ErrDict PageResult :=
  match net url with
  | .ok fu st ct body hs cs _hist =>
    let ctl := strLower ct
    .ok { url := fu, status_code := st, content_type := ctl
          html := if htmlContentType ctl then body else none
          headers := hs.filter fun kv => strLower kv.1 ∈ ALLOWED_HEADER_KEYS
          cookies := cs.take MAX_COOKIE_KEYS }
  | .timeout => .error ⟨"timeout", "Upstream request timed out", url⟩
  | .requestError m => .error ⟨"request_error", m, url⟩
  | .unexpectedError m => .error ⟨"unexpected_error", m, url⟩

/-- Crawl traversal state: fetched pages, recorded errors, and (model
instrumentation) every URL requested so far, in order. -/
structure FetchSt where
  pages : List PageResult
  errors : List ErrDict
  requests : List String
deriving Repr, DecidableEq

/-- The budgeted best-effort fetch loops (steps 2 and 3 of
`crawl_site_signals`): the page budget is checked before every fetch,
failures append to `errors` and traversal continues. -/
def fetchLoop (net : Network) : List String → FetchSt → FetchSt
  | [], st => st
  | u :: us, st =>
    if MAX_PAGES ≤ st.pages.length then st
    else
      match safe_get net u with
      | .error e => fetchLoop net us ⟨st.pages, st.errors ++ [e], st.requests ++ [u]⟩
      | .ok pr => fetchLoop net us ⟨st.pages ++ [pr], st.errors, st.requests ++ [u]⟩

/-- Value of one booking-flow evidence entry (string or list of strings). -/
inductive EvVal where
  | str (s : String)
  | strs (l : List String)
deriving Repr, DecidableEq

structure BookingEv where
  etype : String
  value : EvVal
deriving Repr, DecidableEq

/-- The `booking_flow` dict built in step 4 of `crawl_site_signals`. -/
structure BookingFlow where
  candidates : List String := []
  final_url : Option String := none
  final_domain : Option String := none
  evidence : List BookingEv := []
deriving Repr, DecidableEq

/-- Inner loop merging booking candidates found on an already-fetched page
into the candidate list (dedup, stop at 6). -/
def extendCands : List String → List String → List String
  | cands, [] => cands
  | cands, c :: cs =>
    let cands2 := if c ∈ cands then cands else cands ++ [c]
    if 6 ≤ cands2.length then cands2 else extendCands cands2 cs

/-- Candidate extraction over the first five fetched pages. -/
def bookingPagesLoop : List PageResult → List String → List String
  | [], cands => cands
  | pr :: prs, cands =>
    if 6 ≤ cands.length then cands
    else
      match pr.html with
      | none => bookingPagesLoop prs cands
      | some h => bookingPagesLoop prs (extendCands cands (findBookingCandidates pr.url h))

/-- Following the first booking candidate (the redirect-following
`client.get` of step 4).  Returns the booking-flow record and the list of
URLs requested by this step; any exception while following yields the
`booking_flow_error` evidence note. -/
def bookingFollow (net : Network) (cands : List String) : BookingFlow × List String :=
  match cands with
  | [] => (⟨[], none, none, []⟩, [])
  | candidate :: _ =>
    match net candidate with
    | .ok fu _st _ct _body _hs cs hist =>
      let ev1 : List BookingEv :=
        if hist ≠ [] then [⟨"redirect_chain", .strs (hist.take MAX_REDIRECTS)⟩] else []
      let ev2 := ev1 ++ [⟨"booking_candidate", .str candidate⟩, ⟨"booking_final_url", .str fu⟩]
      let ckeys := (cs.map Prod.fst).take MAX_COOKIE_KEYS
      let ev3 := ev2 ++ (if ckeys ≠ [] then [⟨"booking_cookie_keys", .strs ckeys⟩] else [])
      (⟨cands, some fu, some (strLower (hostOf fu)), ev3⟩, [candidate])
    | _ =>
      (⟨cands, none, none, [⟨"booking_flow_error", .str "Could not follow booking candidate."⟩]⟩,
        [candidate])

/-- Asset references (`src`/`href`/`action` of script/iframe/img/a/link/form
tags) of one fetched page, resolved against the page URL. -/
def pageAssets (pr : PageResult) : List String :=
  match pr.html with
  | none => []
  | some h =>
    h.tags.foldl (fun acc t =>
      if t.name ∈ ["script", "iframe", "img", "a", "link", "form"] then
        acc ++ ([t.src, t.href, t.action].filterMap fun v =>
          let v2 := strTrim v
          if v2 = "" then none else some (urljoin pr.url v2))
      else acc) []

/-- Cookie-key union loop of the aggregation phase (append-if-new, breaking
only right after the cap is reached — so one page can push the union one
past the cap, exactly as the Python loop does; the crawl output then
re-truncates). -/
def addCookieKeys : List String → List String → List String
  | acc, [] => acc
  | acc, k :: ks =>
    if k ∈ acc then addCookieKeys acc ks
    else
      let acc2 := acc ++ [k]
      if MAX_COOKIE_KEYS ≤ acc2.length then acc2 else addCookieKeys acc2 ks

structure Aggregates where
  asset_urls : List String
  asset_domains : List String
  headers : List (String × String)
  cookie_keys : List String
  blob : String
deriving Repr, DecidableEq

/-- The aggregation phase of `crawl_site_signals` (headers union with last
write winning, cookie keys, asset URLs/domains, combined text blob).
The JSON-LD extraction is omitted: its output feeds only the human-readable
evidence snippet, which no analysed behaviour reads back. -/
def aggregate (pages : List PageResult) : Aggregates :=
  let headers_union := pages.foldl (fun acc pr => dictUpdate acc pr.headers) []
  let cookie_keys_union := pages.foldl (fun acc pr => addCookieKeys acc (pr.cookies.map Prod.fst)) []
  let combined_parts := pages.foldl (fun acc pr =>
    match pr.html with
    | none => acc
    | some h => acc ++ [h.raw, getText h]) []
  let asset_urls_raw := pages.foldl (fun acc pr => acc ++ pageAssets pr) []
  let asset_domains_raw := asset_urls_raw.filterMap fun u =>
    let h := strLower (hostOf u)
    if h = "" then none else some h
  { asset_urls := dedupKeepFirst asset_urls_raw
    asset_domains := sortStr (dedupKeepFirst asset_domains_raw)
    headers := headers_union
    cookie_keys := cookie_keys_union
    blob := truncate (joinSp combined_parts) MAX_TEXT_CHARS }

/-- The signals dictionary returned by `crawl_site_signals`, plus (model
instrumentation) the ordered list of URLs the crawl requested.  On the
home-page-failure early return the aggregate fields keep their empty
defaults, matching the keys the Python dict simply omits there. -/
structure CrawlOut where
  root_url : String
  base : String
  pages : List PageResult
  asset_urls : List String := []
  asset_domains : List String := []
  headers : List (String × String) := []
  cookie_keys : List String := []
  booking_flow : BookingFlow := {}
  blob : String := ""
  errors : List ErrDict
  requests : List String
deriving Repr, DecidableEq

/-- The post-home phases of `crawl_site_signals` (steps 2–4 plus
aggregation), run once the home fetch succeeded. -/
def crawlAfterHome (net : Network) (root_url base : String) (home : PageResult) : CrawlOut :=
  let st1 := fetchLoop net [urljoin base "/robots.txt", urljoin base "/sitemap.xml"]
    ⟨[home], [], [root_url]⟩
  let homeHtml := home.html.getD {}
  let internal := internalLinksFromSoup root_url homeHtml MAX_INTERNAL_LINKS
  let st2 := fetchLoop net internal st1
  let cands0 := findBookingCandidates root_url homeHtml
  let cands := bookingPagesLoop (st2.pages.take 5) cands0
  let bk := bookingFollow net cands
  let ag := aggregate st2.pages
  { root_url := root_url, base := base, pages := st2.pages
    asset_urls := ag.asset_urls, asset_domains := ag.asset_domains
    headers := ag.headers, cookie_keys := ag.cookie_keys.take MAX_COOKIE_KEYS
    booking_flow := bk.1, blob := ag.blob
    errors := st2.errors, requests := st2.requests ++ bk.2 }

/-- `crawl_site_signals` from src/app.py: home page (hard abort on fetch
error), robots.txt and sitemap.xml, budgeted depth-1 internal links,
booking-flow discovery, then aggregation. -/
def crawl_site_signals (net : Network) (root_url0 : String) : CrawlOut :=
  let root_url := normalise_url root_url0
  let base := originOf root_url
  match safe_get net root_url with
  | .error e =>
    { root_url := root_url, base := base, pages := [], errors := [e], requests := [root_url] }
  | .ok home => crawlAfterHome net root_url base home

/-- The `Signals` view `detect_tools_from_signals` reads off the crawl
output dictionary. -/
def toSignals (c : CrawlOut) : Signals :=
  { blob := c.blob, asset_domains := c.asset_domains, asset_urls := c.asset_urls
    cookie_keys := c.cookie_keys, headers := c.headers
    booking_final := c.booking_flow.final_domain
    booking_candidates := c.booking_flow.candidates }

/-- Per-layer entry of `score_layers` output read by `compute_comparison`
(`layer` and `score_0_to_5`). -/
structure LayerScoreItem where
  layer : String
  score05 : Option ℚ
deriving Repr, DecidableEq

/-- The scores dictionary flowing through `analyze`
(`overall_score_0_to_100`, `layer_scores`, optional `error`). -/
structure ScoresObj where
  overall : Option ℚ
  layer_scores : List LayerScoreItem := []
  error : Option String := none
deriving Repr, DecidableEq

/-- The opportunity-model dictionary, reduced to the fields the analysed
behaviour distinguishes (its static assumptions payload is data). -/
structure OppObj where
  scope_note : String := ""
  error : Option String := none
deriving Repr, DecidableEq

/-- One value of the `layers` summary built by `build_layer_summary`.
The static `proof_path` text lists are omitted: presentation data no
analysed behaviour reads back. -/
structure LayerSummary where
  visibility : String
  strategic_importance : String
  importance_rationale : String
  detections : List Detection
  likely_state : Option String
  typical_risk : Option String
deriving Repr, DecidableEq

def UNRESOLVED_LIKELY_TEXT : String :=
  "This capability is commonly present in hotels, but cannot be inferred with confidence from current public signals."

def UNRESOLVED_RISK_TEXT : String :=
  "Treat as an investigation item; lack of clarity itself creates operational and commercial risk."

/-- The summary entry `build_layer_summary` computes for one layer. -/
def layerSummaryFor (imp : String → String × String)
    (likely : String → Option String × Option String)
    (by_layer : List (String × List Detection)) (layer : String) : LayerSummary :=
  let dets := (lookupAssoc by_layer layer).getD []
  let i := imp layer
  let f := likely layer
  if dets ≠ [] then
    ⟨"Observed", i.1, i.2, dets, f.1, f.2⟩
  else if truthy f.1 || truthy f.2 then
    ⟨"Inferred", i.1, i.2, [], f.1, f.2⟩
  else
    ⟨"Unresolved", i.1, i.2, [],
      some UNRESOLVED_LIKELY_TEXT, some UNRESOLVED_RISK_TEXT⟩

/-- `build_layer_summary` from src/app.py.  `imp` and `likely` supply the
`STRATEGIC_IMPORTANCE` and `LIKELY_STATE_BY_LAYER` tables (imported by
app.py from modules outside the analysed sources), already defaulted the
way the `.get` calls default them. -/
def build_layer_summary (imp : String → String × String)
    (likely : String → Option String × Option String)
    (by_layer : List (String × List Detection)) : List (String × LayerSummary) :=
  CANONICAL_LAYER_ORDER.map fun layer => (layer, layerSummaryFor imp likely by_layer layer)

/-- Result of `compute_comparison` (score delta, per-layer deltas over the
canonical layers both sides scored, booking-engine domains). -/
structure Comparison where
  score_delta : Option ℚ
  layer_deltas : List (String × ℚ)
  booking_a : Option String
  booking_b : Option String
deriving Repr, DecidableEq

/-- `compute_comparison` from src/app.py, on the score objects and
booking-flow final domains it actually reads. -/
def compute_comparison (aScores bScores : ScoresObj) (aBook bBook : Option String) :
    Comparison :=
  let delta := match aScores.overall, bScores.overall with
    | some x, some y => some (roundTo 1 (x - y))
    | _, _ => none
  let layer_deltas := CANONICAL_LAYER_ORDER.filterMap fun k =>
    match aScores.layer_scores.find? (fun it => it.layer == k),
        bScores.layer_scores.find? (fun it => it.layer == k) with
    | some ia, some ib =>
      match ia.score05, ib.score05 with
      | some x, some y => some (k, roundTo 2 (x - y))
      | _, _ => none
    | _, _ => none
  ⟨delta, layer_deltas, aBook, bBook⟩

/-- Tag for `analysis["comparison"]`: computed, or the error dict set when
the competitor scan raised. -/
inductive ComparisonRes where
  | computed (c : Comparison)
  | failed (tag : String)
deriving Repr, DecidableEq

/-- The slice of the evidence dictionary the analysed behaviour reads back
(`crawl_errors`, and the booking final domain used by the comparison). -/
structure EvidenceObj where
  crawl_errors : List ErrDict := []
  booking_final_domain : Option String := none
deriving Repr, DecidableEq

/-- The analysis object `/analyze` returns.  Static passthrough payloads
(benchmarks, segment inference, roadmap, notes, confirmations echo) are
omitted: data copied from configuration that no analysed claim reads. -/
structure Analysis where
  url : String
  detections : List Detection
  scores : ScoresObj
  layers : List (String × LayerSummary)
  opportunity : OppObj
  evidence : EvidenceObj
  comparison : Option ComparisonRes := none
  error : Option ErrDict := none
deriving Repr, DecidableEq

structure AnalyzeResponse where
  analysis : Analysis
  report_md : String
deriving Repr, DecidableEq

/-- Outcome of the first `render_report_md(analysis)` call: a report, a
`TypeError` (retried with a reduced payload), or another exception. -/
inductive RenderRes where
  | ok (s : String)
  | typeErr
  | exc (msg : String)
deriving Repr, DecidableEq

/-- `AnalyzeRequest` fields the analysed behaviour reads. -/
structure AnalyzeReq where
  url : String
  competitor_url : Option String := none
  pms_vendor : Option String := none
  booking_engine_vendor : Option String := none
  channel_manager_vendor : Option String := none
  crm_vendor : Option String := none

/-- Environment of one `/analyze` call: the network, the rule set
(detectors.yaml), the regular-expression engine, the configuration tables,
and the outcomes (value or raised-exception message) of each call into the
collaborator modules app.py imports from outside the analysed sources
(`score_layers`, `opportunity_model`, `render_report_md`); `compRaises`
models an exception raised anywhere inside the competitor-scan block. -/
structure AnalyzeEnv where
  net : Network
  compNet : Network
  rules : List Rule
  rx : String → String → Bool
  imp : String → String × String
  likely : String → Option String × Option String
  scoreOutcome : Except String ScoresObj
  compScoreOutcome : Except String ScoresObj := .ok ⟨none, [], none⟩
  oppOutcome : Except String OppObj
  oppFallbackOutcome : Except String OppObj := .ok {}
  renderOutcome : RenderRes
  renderRetryOutcome : Except String String := .ok ""
  renderFallbackOutcome : Except String String := .ok ""
  compRaises : Option String := none

def FALLBACK_REPORT_MD : String :=
  "# Hotel Technology & Revenue Readiness Assessment\n\nWe couldn’t complete the scan just now. This does not indicate a problem with your systems.\n"

def renderErrMd (m : String) : String :=
  "# Hotel Technology & Revenue Readiness Assessment\n\nAnalysis completed, but report generation hit a formatting issue.\n\n**Error:** " ++ m ++ "\n"

/-- `fallback_response` from src/app.py: empty detections, null scores,
all-layers-empty summary, the triggering error recorded both at top level
and as the evidence crawl error, and a best-effort report. -/
def fallback_response (env : AnalyzeEnv) (error : ErrDict) (url : String) : AnalyzeResponse :=
  let opp := match env.oppFallbackOutcome with
    | .ok o => o
    | .error m => { scope_note := "", error := some ("opportunity_model failed: " ++ m) }
  let layers := build_layer_summary env.imp env.likely
    (CANONICAL_LAYER_ORDER.map fun l => (l, []))
  let analysis : Analysis :=
    { url := url, detections := [], scores := ⟨none, [], none⟩, layers := layers
      opportunity := opp, evidence := ⟨[error], none⟩, error := some error }
  let report := match env.renderFallbackOutcome with
    | .ok s => s
    | .error _ => FALLBACK_REPORT_MD
  ⟨analysis, report⟩

/-- The four `inject_confirmed_system` calls of `/analyze`, threading the
`(by_layer, detections)` pair. -/
def injectAll (req : AnalyzeReq) (d0 : List Detection × List (String × List Detection)) :
    List (String × List Detection) × List Detection :=
  let i1 := inject_confirmed_system d0.2 d0.1 req.pms_vendor
    "Core Systems" "PMS" "Property Management System"
  let i2 := inject_confirmed_system i1.1 i1.2 req.booking_engine_vendor
    "Distribution" "Booking Engine" "Booking Engine"
  let i3 := inject_confirmed_system i2.1 i2.2 req.channel_manager_vendor
    "Distribution" "Channel Manager" "Channel Manager"
  inject_confirmed_system i3.1 i3.2 req.crm_vendor
    "Guest Data & CRM" "CRM" "CRM / Guest Data Platform"

/-- The analysis object built on the successful-crawl path of `/analyze`:
detect, inject confirmations, score/opportunity with per-step exception
recovery, layer summary, and the optional competitor comparison. -/
def analyzeMainAnalysis (env : AnalyzeEnv) (req : AnalyzeReq) (url : String)
    (signals : CrawlOut) : Analysis :=
  let d0 := detect_tools_from_signals env.rx env.rules (toSignals signals)
  let i4 := injectAll req d0
  let scores := match env.scoreOutcome with
    | .ok s => s
    | .error m => ⟨none, [], some ("score_layers failed: " ++ m)⟩
  let opp := match env.oppOutcome with
    | .ok o => o
    | .error m => { scope_note := "", error := some ("opportunity_model failed: " ++ m) }
  let layers := build_layer_summary env.imp env.likely i4.1
  let base : Analysis :=
    { url := url, detections := i4.2, scores := scores, layers := layers
      opportunity := opp
      evidence := ⟨signals.errors.take 8, signals.booking_flow.final_domain⟩ }
  match req.competitor_url with
  | none => base
  | some curl =>
    match env.compRaises with
    | some _ => { base with comparison := some (.failed "competitor_scan_failed") }
    | none =>
      let csig := crawl_site_signals env.compNet (normalise_url curl)
      let _cdets := detect_tools_from_signals env.rx env.rules (toSignals csig)
      let cscores := match env.compScoreOutcome with
        | .ok s => s
        | .error _ => ⟨none, [], some "score_layers_failed"⟩
      let comp := compute_comparison scores cscores
        signals.booking_flow.final_domain csig.booking_flow.final_domain
      { base with comparison := some (.computed comp) }

/-- The `/analyze` endpoint from src/app.py: crawl, then the main analysis,
and report rendering with the `TypeError` retry whose own failure falls
through to the outer handler (which answers with `fallback_response`). -/
def analyze (env : AnalyzeEnv) (req : AnalyzeReq) : AnalyzeResponse :=
  let url := normalise_url req.url
  let signals := crawl_site_signals env.net url
  if signals.pages = [] then
    fallback_response env ⟨"crawl_failed", "No pages fetched.", ""⟩ url
  else
    let analysis := analyzeMainAnalysis env req url signals
    match env.renderOutcome with
    | .ok s => ⟨analysis, s⟩
    | .exc m => ⟨analysis, renderErrMd m⟩
    | .typeErr =>
      match env.renderRetryOutcome with
      | .ok s => ⟨analysis, s⟩
      | .error m => fallback_response env ⟨"unhandled_processing_error", m, ""⟩ url

/-! ## Theorems about the crawl -/

theorem safe_get_failure (net : Network) (u : String)
    (h : (net u).isFailure = true) : ∃ e : ErrDict, safe_get net u = Except.error e := by
  cases hn : net u with
  | ok fu st ct body hs cs hist => rw [hn] at h; simp [FetchOutcome.isFailure] at h
  | timeout =>
    exact ⟨⟨"timeout", "Upstream request timed out", u⟩, by simp [safe_get, hn]⟩
  | requestError m => exact ⟨⟨"request_error", m, u⟩, by simp [safe_get, hn]⟩
  | unexpectedError m => exact ⟨⟨"unexpected_error", m, u⟩, by simp [safe_get, hn]⟩

theorem safe_get_success (net : Network) (u : String)
    (h : (net u).isFailure = false) : ∃ pr : PageResult, safe_get net u = Except.ok pr := by
  cases hn : net u with
  | ok fu st ct body hs cs hist =>
    refine ⟨?_, ?_⟩
    · exact { url := fu, status_code := st, content_type := strLower ct
              html := if htmlContentType (strLower ct) then body else none
              headers := hs.filter fun kv => strLower kv.1 ∈ ALLOWED_HEADER_KEYS
              cookies := cs.take MAX_COOKIE_KEYS }
    · simp [safe_get, hn]
  | timeout => rw [hn] at h; simp [FetchOutcome.isFailure] at h
  | requestError m => rw [hn] at h; simp [FetchOutcome.isFailure] at h
  | unexpectedError m => rw [hn] at h; simp [FetchOutcome.isFailure] at h

theorem crawl_ok (net : Network) (url : String) (home : PageResult)
    (hsg : safe_get net (normalise_url url) = Except.ok home) :
    crawl_site_signals net url
      = crawlAfterHome net (normalise_url url) (originOf (normalise_url url)) home := by
  simp [crawl_site_signals, hsg]

/-- C1 (amended): if the home-page GET raises (timeout, transport error, or
any unexpected exception), `crawl_site_signals` returns a signals object
with empty `pages` and a non-empty `errors` list; being a total function of
the observed network it raises nothing itself.  An HTTP 4xx/5xx home
response is not such a failure — the crawl records it as a fetched page and
continues (see the counterexample). -/
theorem C1_home_fetch_failure_empty_pages (net : Network) (url : String)
    (h : (net (normalise_url url)).isFailure = true) :
    (crawl_site_signals net url).pages = [] ∧ (crawl_site_signals net url).errors ≠ [] := by
  obtain ⟨e, he⟩ := safe_get_failure net (normalise_url url) h
  simp [crawl_site_signals, he]

def timeoutNet : Network := fun _ => FetchOutcome.timeout

theorem C1_witness :
    ((timeoutNet "https://h.example").isFailure = true) ∧
    (crawl_site_signals timeoutNet "https://h.example").pages = [] ∧
    (crawl_site_signals timeoutNet "https://h.example").errors ≠ [] :=
  ⟨by decide, C1_home_fetch_failure_empty_pages timeoutNet "https://h.example" (by decide)⟩

/-- A network whose every response is HTTP 404 with an HTML content type. -/
def statusNet : Network := fun u => FetchOutcome.ok u 404 "text/html" none [] [] []

/-- C1 counterexample: a home page answering HTTP 404 does not abort the
crawl — `pages` holds the 404 home, robots and sitemap responses and
`errors` stays empty, contradicting the claim that a 4xx/5xx home page
yields empty `pages` and non-empty `errors`. -/
theorem C1_counterexample :
    (crawl_site_signals statusNet "https://h.example").pages.map PageResult.status_code
        = [404, 404, 404] ∧
    (crawl_site_signals statusNet "https://h.example").errors = [] := by decide

theorem fetchLoop_pages_le (net : Network) (urls : List String) (st : FetchSt)
    (h : st.pages.length ≤ MAX_PAGES) :
    (fetchLoop net urls st).pages.length ≤ MAX_PAGES := by
  induction urls generalizing st with
  | nil => simpa [fetchLoop] using h
  | cons u us ih =>
    rw [fetchLoop]
    by_cases hb : MAX_PAGES ≤ st.pages.length
    · rw [if_pos hb]; exact h
    · rw [if_neg hb]
      cases hsg : safe_get net u with
      | error e => exact ih _ (by simpa using h)
      | ok pr => refine ih _ ?_; simp; omega

theorem fetchLoop_balance (net : Network) (urls : List String) (st : FetchSt) :
    (fetchLoop net urls st).requests.length + st.pages.length + st.errors.length
      = st.requests.length + (fetchLoop net urls st).pages.length
          + (fetchLoop net urls st).errors.length := by
  induction urls generalizing st with
  | nil => simp [fetchLoop]
  | cons u us ih =>
    rw [fetchLoop]
    by_cases hb : MAX_PAGES ≤ st.pages.length
    · simp [if_pos hb]
    · rw [if_neg hb]
      cases hsg : safe_get net u with
      | error e =>
        have h2 := ih ⟨st.pages, st.errors ++ [e], st.requests ++ [u]⟩
        simp at h2 ⊢
        omega
      | ok pr =>
        have h2 := ih ⟨st.pages ++ [pr], st.errors, st.requests ++ [u]⟩
        simp at h2 ⊢
        omega

theorem bookingFollow_snd (net : Network) (cands : List String) :
    (bookingFollow net cands).2 = cands.take 1 := by
  cases cands with
  | nil => rfl
  | cons c cs => cases hn : net c <;> simp [bookingFollow, hn]

/-- C8 (amended): the 16-page budget is checked before every robots.txt /
sitemap.xml / internal-link fetch, so the crawl never stores more than
`MAX_PAGES` pages; and since each budgeted request yields exactly one page
or one recorded error, the only request the budget does not govern is the
single optional booking-flow follow — requests never exceed
pages + errors + 1. -/
theorem crawlAfterHome_pages_le (net : Network) (root base : String) (home : PageResult) :
    (crawlAfterHome net root base home).pages.length ≤ MAX_PAGES := by
  simp only [crawlAfterHome]
  exact fetchLoop_pages_le _ _ _ (fetchLoop_pages_le _ _ _ (by simp [MAX_PAGES]))

theorem crawlAfterHome_requests_le (net : Network) (root base : String) (home : PageResult) :
    (crawlAfterHome net root base home).requests.length
      ≤ (crawlAfterHome net root base home).pages.length
          + (crawlAfterHome net root base home).errors.length + 1 := by
  simp only [crawlAfterHome]
  have h1 := fetchLoop_balance net [urljoin base "/robots.txt", urljoin base "/sitemap.xml"]
    ⟨[home], [], [root]⟩
  set st1 := fetchLoop net [urljoin base "/robots.txt", urljoin base "/sitemap.xml"]
    ⟨[home], [], [root]⟩ with hst1
  have h2 := fetchLoop_balance net
    (internalLinksFromSoup root (home.html.getD {}) MAX_INTERNAL_LINKS) st1
  set st2 := fetchLoop net (internalLinksFromSoup root (home.html.getD {}) MAX_INTERNAL_LINKS) st1
    with hst2
  rw [bookingFollow_snd]
  have h3 : (List.take 1 (bookingPagesLoop (st2.pages.take 5)
      (findBookingCandidates root (home.html.getD {})))).length ≤ 1 := by
    simp [List.length_take]
  simp only [List.length_append] at h1 h2 ⊢
  simp only [List.length_cons, List.length_nil] at h1
  omega

/-- C8 (amended): the 16-page budget is checked before every robots.txt /
sitemap.xml / internal-link fetch, so the crawl never stores more than
`MAX_PAGES` pages; and since each budgeted request yields exactly one page
or one recorded error, the only request the budget does not govern is the
single optional booking-flow follow — requests never exceed
pages + errors + 1. -/
theorem C8_page_budget (net : Network) (url : String) :
    (crawl_site_signals net url).pages.length ≤ MAX_PAGES ∧
    (crawl_site_signals net url).requests.length
      ≤ (crawl_site_signals net url).pages.length
          + (crawl_site_signals net url).errors.length + 1 := by
  cases hsg : safe_get net (normalise_url url) with
  | error e => constructor <;> simp [crawl_site_signals, hsg, MAX_PAGES]
  | ok home =>
    rw [crawl_ok net url home hsg]
    exact ⟨crawlAfterHome_pages_le _ _ _ _, crawlAfterHome_requests_le _ _ _ _⟩

/-- A home page exposing fourteen same-host links plus a book-now link. -/
def c8home : Html :=
  { raw := ""
    tags :=
      [⟨"a", "/p01", "", "", ""⟩, ⟨"a", "/p02", "", "", ""⟩, ⟨"a", "/p03", "", "", ""⟩,
       ⟨"a", "/p04", "", "", ""⟩, ⟨"a", "/p05", "", "", ""⟩, ⟨"a", "/p06", "", "", ""⟩,
       ⟨"a", "/p07", "", "", ""⟩, ⟨"a", "/p08", "", "", ""⟩, ⟨"a", "/p09", "", "", ""⟩,
       ⟨"a", "/p10", "", "", ""⟩, ⟨"a", "/p11", "", "", ""⟩, ⟨"a", "/p12", "", "", ""⟩,
       ⟨"a", "/p13", "", "", ""⟩, ⟨"a", "/p14", "", "", ""⟩,
       ⟨"a", "/p01", "", "", "Book now"⟩] }

def c8net : Network := fun u =>
  if u = "https://h.example" then FetchOutcome.ok u 200 "text/html" (some c8home) [] [] []
  else FetchOutcome.ok u 200 "text/html" none [] [] []

/-- C8 counterexample: on this site the crawl fills its 16-page budget
(home, robots, sitemap, thirteen internal links) and then still issues a
17th request — the booking-flow follow — with no budget check before it, so
the budget is not checked before every additional fetch. -/
theorem C8_counterexample :
    MAX_PAGES = 16 ∧
    (crawl_site_signals c8net "https://h.example").pages.length = 16 ∧
    (crawl_site_signals c8net "https://h.example").requests.length = 17 := by decide

/-! ## Theorems about booking-flow discovery -/

theorem bookingFollow_candidates (net : Network) (c : String) (cs : List String) :
    (bookingFollow net (c :: cs)).1.candidates = c :: cs := by
  cases hn : net c <;> simp [bookingFollow, hn]

theorem bookingFollow_fail (net : Network) (c : String) (cs : List String)
    (h : (net c).isFailure = true) :
    (bookingFollow net (c :: cs)).1.evidence
      = [⟨"booking_flow_error", EvVal.str "Could not follow booking candidate."⟩] := by
  cases hn : net c with
  | ok fu st ct body hs cks hist => rw [hn] at h; simp [FetchOutcome.isFailure] at h
  | timeout => simp [bookingFollow, hn]
  | requestError m => simp [bookingFollow, hn]
  | unexpectedError m => simp [bookingFollow, hn]

theorem bookingFollow_ok (net : Network) (c : String) (cs : List String)
    (fu : String) (st : ℤ) (ct : String) (body : Option Html)
    (hs cks : List (String × String)) (hist : List String)
    (hn : net c = FetchOutcome.ok fu st ct body hs cks hist) :
    (bookingFollow net (c :: cs)).1.final_url = some fu ∧
    (bookingFollow net (c :: cs)).1.final_domain = some (strLower (hostOf fu)) ∧
    (hist ≠ [] →
      (⟨"redirect_chain", EvVal.strs (hist.take MAX_REDIRECTS)⟩ : BookingEv)
        ∈ (bookingFollow net (c :: cs)).1.evidence) := by
  refine ⟨by simp [bookingFollow, hn], by simp [bookingFollow, hn], ?_⟩
  intro hh
  simp [bookingFollow, hn, hh]

theorem extendCands_subset (extra cands : List String) (c : String)
    (h : c ∈ extendCands cands extra) : c ∈ cands ∨ c ∈ extra := by
  induction extra generalizing cands with
  | nil => exact Or.inl h
  | cons e es ih =>
    rw [extendCands] at h
    by_cases he : e ∈ cands
    · simp only [if_pos he] at h
      split at h
      · exact (Or.inl h).imp id (List.mem_cons_of_mem e)
      · rcases ih _ h with h1 | h1
        · exact Or.inl h1
        · exact Or.inr (List.mem_cons_of_mem e h1)
    · simp only [if_neg he] at h
      split at h
      · rcases List.mem_append.mp h with h1 | h1
        · exact Or.inl h1
        · exact Or.inr (by simpa using Or.inl (by simpa using h1))
      · rcases ih _ h with h1 | h1
        · rcases List.mem_append.mp h1 with h2 | h2
          · exact Or.inl h2
          · exact Or.inr (by simpa using Or.inl (by simpa using h2))
        · exact Or.inr (List.mem_cons_of_mem e h1)

theorem bookingPagesLoop_subset (prs : List PageResult) (cands : List String) (c : String)
    (h : c ∈ bookingPagesLoop prs cands) :
    c ∈ cands ∨ ∃ pr ∈ prs, ∃ hh, pr.html = some hh ∧ c ∈ findBookingCandidates pr.url hh := by
  induction prs generalizing cands with
  | nil => exact Or.inl h
  | cons pr prs ih =>
    rw [bookingPagesLoop] at h
    split at h
    · exact Or.inl h
    · cases hh : pr.html with
      | none =>
        rw [hh] at h
        rcases ih _ h with h1 | ⟨pr2, h2, h3⟩
        · exact Or.inl h1
        · exact Or.inr ⟨pr2, List.mem_cons_of_mem pr h2, h3⟩
      | some doc =>
        rw [hh] at h
        rcases ih _ h with h1 | ⟨pr2, h2, h3⟩
        · rcases extendCands_subset _ _ _ h1 with h2 | h2
          · exact Or.inl h2
          · exact Or.inr ⟨pr, List.mem_cons_self pr prs, doc, hh, h2⟩
        · exact Or.inr ⟨pr2, List.mem_cons_of_mem pr h2, h3⟩

theorem fetchLoop_pages_prefix (net : Network) (urls : List String) (st : FetchSt) :
    st.pages <+: (fetchLoop net urls st).pages := by
  induction urls generalizing st with
  | nil => simp [fetchLoop]
  | cons u us ih =>
    rw [fetchLoop]
    split
    · exact List.prefix_refl _
    · cases hsg : safe_get net u with
      | error e => exact ih ⟨st.pages, st.errors ++ [e], st.requests ++ [u]⟩
      | ok pr =>
        exact List.IsPrefix.trans ⟨[pr], rfl⟩
          (ih ⟨st.pages ++ [pr], st.errors, st.requests ++ [u]⟩)

theorem singleton_prefix_head {α : Type} (a : α) (l : List α)
    (h : [a] <+: l) : l.head? = some a := by
  obtain ⟨t, rfl⟩ := h
  rfl

theorem crawlAfterHome_booking (net : Network) (root base : String) (home : PageResult) :
    ((crawlAfterHome net root base home).booking_flow.candidates = [] →
      (crawlAfterHome net root base home).requests.length
        = (crawlAfterHome net root base home).pages.length
            + (crawlAfterHome net root base home).errors.length) ∧
    ((crawlAfterHome net root base home).pages.head? = some home) ∧
    (∀ c ∈ (crawlAfterHome net root base home).booking_flow.candidates,
      c ∈ findBookingCandidates root (home.html.getD {}) ∨
        ∃ pr ∈ (crawlAfterHome net root base home).pages.take 5, ∃ hh,
          pr.html = some hh ∧ c ∈ findBookingCandidates pr.url hh) ∧
    (∀ c cs, (crawlAfterHome net root base home).booking_flow.candidates = c :: cs →
      (crawlAfterHome net root base home).requests.getLast? = some c ∧
      (crawlAfterHome net root base home).requests.length
        = (crawlAfterHome net root base home).pages.length
            + (crawlAfterHome net root base home).errors.length + 1 ∧
      ((net c).isFailure = true →
        (crawlAfterHome net root base home).booking_flow.evidence
          = [⟨"booking_flow_error", EvVal.str "Could not follow booking candidate."⟩] ∧
        (crawlAfterHome net root base home).pages ≠ []) ∧
      (∀ fu stc ct body hs cks hist, net c = FetchOutcome.ok fu stc ct body hs cks hist →
        (crawlAfterHome net root base home).booking_flow.final_url = some fu ∧
        (crawlAfterHome net root base home).booking_flow.final_domain
          = some (strLower (hostOf fu)) ∧
        (hist ≠ [] →
          (⟨"redirect_chain", EvVal.strs (hist.take MAX_REDIRECTS)⟩ : BookingEv)
            ∈ (crawlAfterHome net root base home).booking_flow.evidence))) := by
  simp only [crawlAfterHome]
  set st1 := fetchLoop net [urljoin base "/robots.txt", urljoin base "/sitemap.xml"]
    ⟨[home], [], [root]⟩ with hst1
  set st2 := fetchLoop net (internalLinksFromSoup root (home.html.getD {}) MAX_INTERNAL_LINKS) st1
    with hst2
  have hpre1 : [home] <+: st1.pages := by
    rw [hst1]
    exact fetchLoop_pages_prefix net _ ⟨[home], [], [root]⟩
  have hpre2 : st1.pages <+: st2.pages := by
    rw [hst2]
    exact fetchLoop_pages_prefix net _ st1
  have hhead : st2.pages.head? = some home :=
    singleton_prefix_head home _ (hpre1.trans hpre2)
  have hpne : st2.pages ≠ [] := by
    intro hh
    rw [hh] at hhead
    simp at hhead
  have hb1 := fetchLoop_balance net [urljoin base "/robots.txt", urljoin base "/sitemap.xml"]
    ⟨[home], [], [root]⟩
  have hb2 := fetchLoop_balance net
    (internalLinksFromSoup root (home.html.getD {}) MAX_INTERNAL_LINKS) st1
  rw [← hst1] at hb1
  rw [← hst2] at hb2
  simp only [List.length_cons, List.length_nil] at hb1
  have hbal : st2.requests.length = st2.pages.length + st2.errors.length := by omega
  generalize hcands : bookingPagesLoop (List.take 5 st2.pages)
    (findBookingCandidates root (home.html.getD {})) = cands
  cases cands with
  | nil =>
    refine ⟨?_, hhead, ?_, ?_⟩
    · intro _
      simp [bookingFollow, hbal]
    · intro c hc
      simp [bookingFollow] at hc
    · intro c cs hceq
      simp [bookingFollow] at hceq
  | cons c0 cs0 =>
    refine ⟨?_, hhead, ?_, ?_⟩
    · intro hnil
      rw [bookingFollow_candidates] at hnil
      exact absurd hnil (by simp)
    · intro c hc
      rw [bookingFollow_candidates] at hc
      rcases bookingPagesLoop_subset _ _ _ (hcands ▸ hc) with h1 | h1
      · exact Or.inl h1
      · exact Or.inr h1
    · intro c cs hceq
      rw [bookingFollow_candidates] at hceq
      cases hceq
      refine ⟨?_, ?_, ?_, ?_⟩
      · rw [bookingFollow_snd]
        simp [List.getLast?_concat]
      · rw [bookingFollow_snd]
        simp [hbal]
      · intro hfail
        exact ⟨bookingFollow_fail net c0 cs0 hfail, hpne⟩
      · intro fu stc ct body hs cks hist hn
        exact bookingFollow_ok net c0 cs0 fu stc ct body hs cks hist hn

/-- C9: booking-flow discovery extracts its candidates from the home page
and the already-fetched pages (first five), follows exactly one candidate —
the first of the deduplicated list, and the crawl's only request beyond the
page/error-producing ones — records the final URL, lower-cased final
domain, and the redirect chain (capped at 6 hops) when redirects occurred,
and a failure while following produces only the `booking_flow_error`
evidence note while the crawl still returns its fetched pages. -/
theorem C9_booking_follow (net : Network) (url : String)
    (hok : (net (normalise_url url)).isFailure = false) :
    ((crawl_site_signals net url).booking_flow.candidates = [] →
      (crawl_site_signals net url).requests.length
        = (crawl_site_signals net url).pages.length
            + (crawl_site_signals net url).errors.length) ∧
    (∀ c ∈ (crawl_site_signals net url).booking_flow.candidates,
      (∃ home, (crawl_site_signals net url).pages.head? = some home ∧
          c ∈ findBookingCandidates (crawl_site_signals net url).root_url
                (home.html.getD {})) ∨
        ∃ pr ∈ (crawl_site_signals net url).pages.take 5, ∃ hh,
          pr.html = some hh ∧ c ∈ findBookingCandidates pr.url hh) ∧
    (∀ c cs, (crawl_site_signals net url).booking_flow.candidates = c :: cs →
      (crawl_site_signals net url).requests.getLast? = some c ∧
      (crawl_site_signals net url).requests.length
        = (crawl_site_signals net url).pages.length
            + (crawl_site_signals net url).errors.length + 1 ∧
      ((net c).isFailure = true →
        (crawl_site_signals net url).booking_flow.evidence
          = [⟨"booking_flow_error", EvVal.str "Could not follow booking candidate."⟩] ∧
        (crawl_site_signals net url).pages ≠ []) ∧
      (∀ fu stc ct body hs cks hist, net c = FetchOutcome.ok fu stc ct body hs cks hist →
        (crawl_site_signals net url).booking_flow.final_url = some fu ∧
        (crawl_site_signals net url).booking_flow.final_domain
          = some (strLower (hostOf fu)) ∧
        (hist ≠ [] →
          (⟨"redirect_chain", EvVal.strs (hist.take MAX_REDIRECTS)⟩ : BookingEv)
            ∈ (crawl_site_signals net url).booking_flow.evidence))) := by
  obtain ⟨home, hsg⟩ := safe_get_success net (normalise_url url) hok
  rw [crawl_ok net url home hsg]
  obtain ⟨h1, hhead, h2, h3⟩ :=
    crawlAfterHome_booking net (normalise_url url) (originOf (normalise_url url)) home
  refine ⟨h1, ?_, h3⟩
  intro c hc
  rcases h2 c hc with hl | hr
  · left
    refine ⟨home, hhead, ?_⟩
    have : (crawlAfterHome net (normalise_url url) (originOf (normalise_url url)) home).root_url
        = normalise_url url := by
      simp [crawlAfterHome]
    rw [this]
    exact hl
  · exact Or.inr hr

/-- A site whose book-now call to action redirects through one intermediate
hop to an external reservation platform. -/
def bookHome : Html := { raw := "", tags := [⟨"a", "/book-now", "", "", "Book now"⟩] }

def bookNet : Network := fun u =>
  if u = "https://h.example" then FetchOutcome.ok u 200 "text/html" (some bookHome) [] [] []
  else if u = "https://h.example/book-now" then
    FetchOutcome.ok "https://live.ihotelier.com/abc" 200 "text/html" none [] []
      ["https://h.example/book-now", "https://mid.example/r"]
  else FetchOutcome.ok u 200 "text/html" none [] [] []

theorem C9_witness :
    (crawl_site_signals bookNet "https://h.example").booking_flow.final_domain
        = some "live.ihotelier.com" ∧
    (⟨"redirect_chain",
        EvVal.strs ["https://h.example/book-now", "https://mid.example/r"]⟩ : BookingEv)
      ∈ (crawl_site_signals bookNet "https://h.example").booking_flow.evidence ∧
    (crawl_site_signals bookNet "https://h.example").requests.getLast?
        = some "https://h.example/book-now" := by
  obtain ⟨-, -, h3⟩ := C9_booking_follow bookNet "https://h.example" (by decide)
  obtain ⟨hlast, -, -, hsucc⟩ := h3 "https://h.example/book-now" [] (by decide)
  obtain ⟨-, hfd, hrc⟩ := hsucc "https://live.ihotelier.com/abc" 200 "text/html" none [] []
    ["https://h.example/book-now", "https://mid.example/r"] (by decide)
  refine ⟨by simpa [strLower, hostOf] using hfd, ?_, hlast⟩
  have h6 := hrc (by decide)
  simpa using h6

/-! ## Theorems about the detector -/

/-- What the rule loop emits for one rule: a detection when `best > 0`,
nothing at all when `best` stayed zero. -/
def detectEmit (rx : String → String → Bool) (dv : DetectView) (r : Rule) : Option Detection :=
  let b := ruleBest rx dv r.patterns
  if 0 < b then some (mkDetection r b) else none

/-- The list stored under one layer of the `by_layer` dictionary. -/
def layerList (byl : List (String × List Detection)) (l : String) : List Detection :=
  (lookupAssoc byl l).getD []

theorem detect_foldl_fst (rx : String → String → Bool) (dv : DetectView)
    (rules : List Rule) (st : List Detection × List (String × List Detection)) :
    (rules.foldl (detectStep rx dv) st).1 = st.1 ++ rules.filterMap (detectEmit rx dv) := by
  induction rules generalizing st with
  | nil => simp
  | cons r rs ih =>
    rw [List.foldl_cons, List.filterMap_cons, ih]
    by_cases hb : 0 < ruleBest rx dv r.patterns
    · simp [detectStep, detectEmit, hb]
    · simp [detectStep, detectEmit, hb]

theorem pyMax_left (a b : ℚ) : a ≤ pyMax a b := by
  rw [pyMax]; split <;> linarith

theorem pyMax_right (a b : ℚ) : b ≤ pyMax a b := by
  rw [pyMax]; split <;> linarith

theorem pyMax_cases (a b : ℚ) : pyMax a b = a ∨ pyMax a b = b := by
  rw [pyMax]; split
  · exact Or.inr rfl
  · exact Or.inl rfl

theorem foldl_bestStep_init_le (rx : String → String → Bool) (dv : DetectView)
    (ps : List Pattern) (acc : ℚ) : acc ≤ ps.foldl (bestStep rx dv) acc := by
  induction ps generalizing acc with
  | nil => simp
  | cons p ps ih =>
    rw [List.foldl_cons]
    refine le_trans ?_ (ih (bestStep rx dv acc p))
    rw [bestStep]
    split
    · exact pyMax_left _ _
    · exact le_refl _

theorem foldl_bestStep_mem_le (rx : String → String → Bool) (dv : DetectView)
    (ps : List Pattern) (acc : ℚ) (p : Pattern) (hp : p ∈ ps)
    (hm : patternCounts rx dv p = true) : p.weight ≤ ps.foldl (bestStep rx dv) acc := by
  induction ps generalizing acc with
  | nil => simp at hp
  | cons q qs ih =>
    rw [List.foldl_cons]
    rcases List.mem_cons.mp hp with rfl | hp2
    · refine le_trans ?_ (foldl_bestStep_init_le rx dv qs (bestStep rx dv acc p))
      rw [bestStep, if_pos hm]
      exact pyMax_right _ _
    · exact ih _ hp2

theorem foldl_bestStep_cases (rx : String → String → Bool) (dv : DetectView)
    (ps : List Pattern) (acc : ℚ) :
    ps.foldl (bestStep rx dv) acc = acc ∨
      ∃ p ∈ ps, patternCounts rx dv p = true ∧ ps.foldl (bestStep rx dv) acc = p.weight := by
  induction ps generalizing acc with
  | nil => exact Or.inl rfl
  | cons q qs ih =>
    rw [List.foldl_cons]
    by_cases hm : patternCounts rx dv q = true
    · rw [bestStep, if_pos hm]
      rcases ih (pyMax acc q.weight) with h1 | ⟨p, hp, hc, he⟩
      · rw [h1]
        rcases pyMax_cases acc q.weight with h2 | h2
        · exact Or.inl h2
        · exact Or.inr ⟨q, List.mem_cons_self q qs, hm, h2⟩
      · exact Or.inr ⟨p, List.mem_cons_of_mem q hp, hc, he⟩
    · rw [bestStep, if_neg hm]
      rcases ih acc with h1 | ⟨p, hp, hc, he⟩
      · exact Or.inl h1
      · exact Or.inr ⟨p, List.mem_cons_of_mem q hp, hc, he⟩

theorem patternCounts_pos (rx : String → String → Bool) (dv : DetectView) (p : Pattern)
    (h : patternCounts rx dv p = true) : 0 < p.weight := by
  rw [patternCounts] at h
  simp only [Bool.and_eq_true, decide_eq_true_eq] at h
  exact h.1.2

theorem foldl_bestStep_filter (rx : String → String → Bool) (dv : DetectView)
    (ps : List Pattern) (acc : ℚ) :
    (ps.filter fun p => decide (0 < p.weight)).foldl (bestStep rx dv) acc
      = ps.foldl (bestStep rx dv) acc := by
  induction ps generalizing acc with
  | nil => simp
  | cons q qs ih =>
    by_cases h0 : 0 < q.weight
    · rw [List.filter_cons_of_pos (by simpa using h0), List.foldl_cons, List.foldl_cons]
      exact ih _
    · rw [List.filter_cons_of_neg (by simpa using h0), List.foldl_cons]
      have hq : patternCounts rx dv q = false := by
        by_contra hc
        exact h0 (patternCounts_pos rx dv q (by simpa using hc))
      rw [bestStep, if_neg (by simp [hq])]
      exact ih _

theorem ruleBest_nonneg (rx : String → String → Bool) (dv : DetectView) (ps : List Pattern) :
    0 ≤ ruleBest rx dv ps :=
  foldl_bestStep_init_le rx dv ps 0

theorem label_confirmed (c : ℚ) (h : mkRat 85 100 ≤ c) : label c = "confirmed" := by
  rw [label, if_pos (by exact h)]

theorem label_probable (c : ℚ) (h1 : mkRat 55 100 ≤ c) (h2 : c < mkRat 85 100) :
    label c = "probable" := by
  rw [label, if_neg (by simp only [ge_iff_le, not_le]; exact h2), if_pos (by exact h1)]

theorem label_possible (c : ℚ) (h1 : 0 < c) (h2 : c < mkRat 55 100) :
    label c = "possible" := by
  have h3 : c < mkRat 85 100 := lt_trans h2 (by norm_num [mkRat])
  rw [label, if_neg (by simp only [ge_iff_le, not_le]; exact h3),
    if_neg (by simp only [ge_iff_le, not_le]; exact h2), if_pos h1]

/-- C2: what the detector emits per rule is exactly: nothing when the
rule's confidence (the `best` accumulator) is zero, otherwise one detection
labelled by `label` applied to that confidence, whose thresholds are
0.85 ⇒ "confirmed", [0.55, 0.85) ⇒ "probable", (0, 0.55) ⇒ "possible". -/
theorem C2_label_thresholds (rx : String → String → Bool) (rules : List Rule)
    (signals : Signals) :
    ((detect_tools_from_signals rx rules signals).1
        = rules.filterMap (detectEmit rx (detectView signals))) ∧
    (∀ r : Rule, ruleBest rx (detectView signals) r.patterns = 0 →
      detectEmit rx (detectView signals) r = none) ∧
    (∀ r : Rule, 0 < ruleBest rx (detectView signals) r.patterns →
      detectEmit rx (detectView signals) r
        = some (mkDetection r (ruleBest rx (detectView signals) r.patterns))) ∧
    (∀ r : Rule, (mkDetection r (ruleBest rx (detectView signals) r.patterns)).label
        = label (ruleBest rx (detectView signals) r.patterns)) ∧
    (∀ c : ℚ,
      (mkRat 85 100 ≤ c → label c = "confirmed") ∧
      (mkRat 55 100 ≤ c ∧ c < mkRat 85 100 → label c = "probable") ∧
      (0 < c ∧ c < mkRat 55 100 → label c = "possible")) := by
  refine ⟨?_, ?_, ?_, ?_, ?_⟩
  · rw [detect_tools_from_signals]
    exact (detect_foldl_fst rx (detectView signals) rules _).trans (by simp)
  · intro r h
    rw [detectEmit]
    simp [h]
  · intro r h
    rw [detectEmit]
    simp [h]
  · intro r
    rfl
  · intro c
    exact ⟨label_confirmed c, fun h => label_probable c h.1 h.2,
      fun h => label_possible c h.1 h.2⟩

def regexNever : String → String → Bool := fun _ _ => false

def thresholdsRule : Rule :=
  { vendor := some "V", category := some "analytics"
    patterns := [{ ptype := some "text_contains", value := some "gtag", weight := mkRat 3 10 }] }

def thresholdsSig : Signals := { blob := "gtag.js" }

theorem C2_witness :
    (detect_tools_from_signals regexNever [thresholdsRule] thresholdsSig).1
        = [mkDetection thresholdsRule (mkRat 3 10)] ∧
    label (mkRat 9 10) = "confirmed" ∧ label (mkRat 6 10) = "probable" ∧
    label (mkRat 3 10) = "possible" := by
  obtain ⟨h1, -, h3, -, h5⟩ := C2_label_thresholds regexNever [thresholdsRule] thresholdsSig
  have hb : ruleBest regexNever (detectView thresholdsSig) thresholdsRule.patterns
      = mkRat 3 10 := by decide
  refine ⟨?_, ?_, ?_, ?_⟩
  · rw [h1]
    have := h3 thresholdsRule (by rw [hb]; decide)
    rw [hb] at this
    simp [this]
  · exact (h5 (mkRat 9 10)).1 (by decide)
  · exact (h5 (mkRat 6 10)).2.1 ⟨by decide, by decide⟩
  · exact (h5 (mkRat 3 10)).2.2 ⟨by decide, by decide⟩

/-- C3: a rule's confidence is the maximum weight over its gate-passing
matching patterns — an upper bound on each matching weight that is attained
by one of them (so never their sum) — and patterns whose weight is not
strictly positive never contribute: filtering them away leaves the
confidence unchanged, and every counting pattern has positive weight. -/
theorem C3_confidence_max_not_sum (rx : String → String → Bool) (signals : Signals)
    (r : Rule) :
    (∀ p ∈ r.patterns, patternCounts rx (detectView signals) p = true →
      p.weight ≤ ruleBest rx (detectView signals) r.patterns) ∧
    (ruleBest rx (detectView signals) r.patterns = 0 ∨
      ∃ p ∈ r.patterns, patternCounts rx (detectView signals) p = true ∧
        ruleBest rx (detectView signals) r.patterns = p.weight) ∧
    (ruleBest rx (detectView signals) (r.patterns.filter fun p => decide (0 < p.weight))
        = ruleBest rx (detectView signals) r.patterns) ∧
    (∀ p : Pattern, patternCounts rx (detectView signals) p = true → 0 < p.weight) := by
  refine ⟨?_, ?_, ?_, ?_⟩
  · intro p hp hm
    exact foldl_bestStep_mem_le rx (detectView signals) r.patterns 0 p hp hm
  · exact foldl_bestStep_cases rx (detectView signals) r.patterns 0
  · exact foldl_bestStep_filter rx (detectView signals) r.patterns 0
  · exact patternCounts_pos rx (detectView signals)

/-- Rule with two matching patterns of different weights plus a
zero-weight pattern, used to witness the max-not-sum arbitration. -/
def maxRule : Rule :=
  { vendor := some "V", category := some "crm"
    patterns :=
      [{ ptype := some "text_contains", value := some "alpha", weight := mkRat 4 10 },
       { ptype := some "text_contains", value := some "beta", weight := mkRat 7 10 },
       { ptype := some "text_contains", value := some "alpha", weight := 0 }] }

def maxSig : Signals := { blob := "alpha beta" }

theorem C3_witness :
    ruleBest regexNever (detectView maxSig) maxRule.patterns = mkRat 7 10 ∧
    mkRat 4 10 ≤ ruleBest regexNever (detectView maxSig) maxRule.patterns ∧
    ruleBest regexNever (detectView maxSig)
        (maxRule.patterns.filter fun p => decide (0 < p.weight))
      = ruleBest regexNever (detectView maxSig) maxRule.patterns := by
  obtain ⟨h1, -, h3, -⟩ := C3_confidence_max_not_sum regexNever maxSig maxRule
  refine ⟨by decide, ?_, h3⟩
  refine h1 { ptype := some "text_contains", value := some "alpha", weight := mkRat 4 10 }
    (by decide) (by decide)

/-! ## Theorems about layer routing -/

theorem appendAssoc_keys {α : Type} (m : List (String × List α)) (k : String) (x : α) :
    (appendAssoc m k x).map Prod.fst = m.map Prod.fst := by
  induction m with
  | nil => rfl
  | cons kv t ih =>
    rw [appendAssoc] at ih ⊢
    by_cases h : kv.1 = k <;> simp [h, ih]

theorem appendAssoc_cons {α : Type} (kv : String × List α) (t : List (String × List α))
    (k : String) (x : α) :
    appendAssoc (kv :: t) k x
      = (if kv.1 = k then (kv.1, kv.2 ++ [x]) else kv) :: appendAssoc t k x := rfl

theorem lookupAssoc_cons {α : Type} (kv : String × α) (t : List (String × α)) (l : String) :
    lookupAssoc (kv :: t) l = if kv.1 = l then some kv.2 else lookupAssoc t l := by
  rw [lookupAssoc]
  by_cases h : kv.1 = l
  · rw [List.find?_cons_of_pos _ (by simp [h]), if_pos h]; rfl
  · rw [List.find?_cons_of_neg _ (by simp [h]), if_neg h]; rfl

theorem lookup_appendAssoc {α : Type} (m : List (String × List α)) (k : String) (x : α)
    (l : String) :
    lookupAssoc (appendAssoc m k x) l
      = (lookupAssoc m l).map fun v => if l = k then v ++ [x] else v := by
  induction m with
  | nil => rfl
  | cons kv t ih =>
    rw [appendAssoc_cons]
    simp only [lookupAssoc_cons]
    have hfst : (if kv.1 = k then (kv.1, kv.2 ++ [x]) else kv).1 = kv.1 := by
      split <;> rfl
    rw [hfst]
    by_cases hl : kv.1 = l
    · rw [if_pos hl, if_pos hl]
      by_cases hk : kv.1 = k
      · simp [hk, show l = k from hl.symm.trans hk]
      · simp [hk, show ¬ l = k from fun he => hk (hl.trans he)]
    · rw [if_neg hl, if_neg hl]
      exact ih

theorem layerList_appendAssoc (m : List (String × List Detection)) (k : String)
    (x : Detection) (l : String) :
    layerList (appendAssoc m k x) l
      = if l = k ∧ (lookupAssoc m l).isSome then layerList m l ++ [x] else layerList m l := by
  rw [layerList, layerList, lookup_appendAssoc]
  cases h : lookupAssoc m l with
  | none => simp [h]
  | some v =>
    by_cases hk : l = k
    · simp [h, hk]
    · simp [h, hk]

theorem lookupAssoc_isSome_of_key {α : Type} (m : List (String × α)) (k : String)
    (h : k ∈ m.map Prod.fst) : (lookupAssoc m k).isSome := by
  obtain ⟨kv, hkv, he⟩ := List.mem_map.mp h
  rw [lookupAssoc]
  cases hf : List.find? (fun kv => kv.1 == k) m with
  | some kv2 => simp
  | none =>
    exfalso
    rw [List.find?_eq_none] at hf
    have h2 := hf kv hkv
    rw [he] at h2
    simp at h2

theorem any_key_of_mem {α : Type} (m : List (String × α)) (k : String)
    (h : k ∈ m.map Prod.fst) : (m.any fun kv => kv.1 == k) = true := by
  rw [List.any_eq_true]
  obtain ⟨kv, hkv, he⟩ := List.mem_map.mp h
  exact ⟨kv, hkv, by simp [he]⟩

theorem lookupAssoc_mem {α : Type} (m : List (String × α)) (k : String) (v : α)
    (h : lookupAssoc m k = some v) : ∃ kv ∈ m, kv.2 = v := by
  rw [lookupAssoc] at h
  cases hf : m.find? (fun kv => kv.1 == k) with
  | none => rw [hf] at h; simp at h
  | some kv =>
    rw [hf] at h
    simp at h
    exact ⟨kv, List.mem_of_find?_eq_some hf, h⟩

theorem CATEGORY_TO_LAYER_values :
    ∀ kv ∈ CATEGORY_TO_LAYER, kv.2 ∈ CANONICAL_LAYER_ORDER := by decide

theorem map_category_mem_canonical (c : String) :
    map_category_to_layer c ∈ CANONICAL_LAYER_ORDER := by
  rw [map_category_to_layer]
  by_cases h1 : strLower (strTrim c) = ""
  · simp only [if_pos h1]; decide
  · rw [if_neg h1]
    by_cases h2 : c ∈ CANONICAL_LAYER_ORDER
    · rw [if_pos h2]; exact h2
    · rw [if_neg h2]
      cases hl : lookupAssoc CATEGORY_TO_LAYER (strLower (strTrim c)) with
      | none => simp only [hl, Option.getD_none]; decide
      | some v =>
        simp only [hl, Option.getD_some]
        obtain ⟨kv, hkv, rfl⟩ := lookupAssoc_mem _ _ _ hl
        exact CATEGORY_TO_LAYER_values kv hkv

theorem layerList_init (L : List String) (l : String) :
    layerList (L.map fun a => (a, ([] : List Detection))) l = [] := by
  induction L with
  | nil => rfl
  | cons a t ih =>
    by_cases h : a = l
    · simp [layerList, lookupAssoc, h]
    · simpa [layerList, lookupAssoc, h] using ih

theorem detect_foldl_invariant (rx : String → String → Bool) (dv : DetectView)
    (rules : List Rule) (st : List Detection × List (String × List Detection))
    (hkeys : st.2.map Prod.fst = CANONICAL_LAYER_ORDER)
    (hmem : ∀ d l, d ∈ layerList st.2 l →
      d ∈ st.1 ∧ l = map_category_to_layer d.category)
    (hin : ∀ d ∈ st.1, d ∈ layerList st.2 (map_category_to_layer d.category)) :
    ((rules.foldl (detectStep rx dv) st).2.map Prod.fst = CANONICAL_LAYER_ORDER) ∧
    (∀ d l, d ∈ layerList (rules.foldl (detectStep rx dv) st).2 l →
      d ∈ (rules.foldl (detectStep rx dv) st).1 ∧ l = map_category_to_layer d.category) ∧
    (∀ d ∈ (rules.foldl (detectStep rx dv) st).1,
      d ∈ layerList (rules.foldl (detectStep rx dv) st).2 (map_category_to_layer d.category)) := by
  induction rules generalizing st with
  | nil => exact ⟨hkeys, hmem, hin⟩
  | cons r rs ih =>
    rw [List.foldl_cons]
    by_cases hb : 0 < ruleBest rx dv r.patterns
    · have hstep : detectStep rx dv st r
          = (st.1 ++ [mkDetection r (ruleBest rx dv r.patterns)],
             appendAssoc st.2
               (map_category_to_layer (mkDetection r (ruleBest rx dv r.patterns)).category)
               (mkDetection r (ruleBest rx dv r.patterns))) := by
        rw [detectStep]
        rw [if_pos hb]
        have hany : (st.2.any fun kv =>
            kv.1 == map_category_to_layer
              (mkDetection r (ruleBest rx dv r.patterns)).category) = true := by
          apply any_key_of_mem
          rw [hkeys]
          exact map_category_mem_canonical _
        simp only [hany, if_true]
      rw [hstep]
      set det := mkDetection r (ruleBest rx dv r.patterns) with hdet
      set layer := map_category_to_layer det.category with hlayer
      apply ih
      · rw [appendAssoc_keys]
        exact hkeys
      · intro d l hd
        rw [layerList_appendAssoc] at hd
        split at hd
        · rcases List.mem_append.mp hd with h1 | h1
          · obtain ⟨h2, h3⟩ := hmem d l h1
            exact ⟨List.mem_append_left _ h2, h3⟩
          · have hdx : d = det := by simpa using h1
            rename_i hcond
            exact ⟨List.mem_append_right _ (by simp [hdx]),
              by rw [hcond.1, hdx]⟩
        · obtain ⟨h2, h3⟩ := hmem d l hd
          exact ⟨List.mem_append_left _ h2, h3⟩
      · intro d hd
        rcases List.mem_append.mp hd with h1 | h1
        · have h2 := hin d h1
          rw [layerList_appendAssoc]
          split
          · exact List.mem_append_left _ h2
          · exact h2
        · have hdx : d = det := by simpa using h1
          subst hdx
          rw [layerList_appendAssoc]
          rw [if_pos ⟨rfl, lookupAssoc_isSome_of_key _ _
            (by rw [hkeys]; exact map_category_mem_canonical _)⟩]
          exact List.mem_append_right _ (by simp)
    · have hstep : detectStep rx dv st r = st := by
        rw [detectStep, if_neg hb]
      rw [hstep]
      exact ih st hkeys hmem hin

/-- C6: the `by_layer` map returned by the detector always carries exactly
the 7 canonical layers as keys, in order, even when their lists are empty;
and a detection sits in the list of layer `l` exactly when it was emitted
and `l` is the (unique) layer its category maps to — so each emitted
detection belongs to exactly one layer's list. -/
theorem C6_seven_layers_exactly_one (rx : String → String → Bool) (rules : List Rule)
    (signals : Signals) :
    ((detect_tools_from_signals rx rules signals).2.map Prod.fst = CANONICAL_LAYER_ORDER) ∧
    (∀ d l, d ∈ layerList (detect_tools_from_signals rx rules signals).2 l →
      d ∈ (detect_tools_from_signals rx rules signals).1 ∧
        l = map_category_to_layer d.category) ∧
    (∀ d ∈ (detect_tools_from_signals rx rules signals).1,
      d ∈ layerList (detect_tools_from_signals rx rules signals).2
            (map_category_to_layer d.category)) := by
  rw [detect_tools_from_signals]
  apply detect_foldl_invariant
  · rw [List.map_map]
    exact List.map_id CANONICAL_LAYER_ORDER
  · intro d l hd
    rw [layerList_init] at hd
    simp at hd
  · intro d hd
    simp at hd

theorem C6_witness :
    ((detect_tools_from_signals regexNever [thresholdsRule] thresholdsSig).2.map Prod.fst
        = CANONICAL_LAYER_ORDER) ∧
    mkDetection thresholdsRule (mkRat 3 10)
      ∈ layerList (detect_tools_from_signals regexNever [thresholdsRule] thresholdsSig).2
          "Commercial Execution" := by
  obtain ⟨h1, -, h3⟩ := C6_seven_layers_exactly_one regexNever [thresholdsRule] thresholdsSig
  refine ⟨h1, ?_⟩
  have h4 := h3 (mkDetection thresholdsRule (mkRat 3 10)) (by decide)
  have h5 : map_category_to_layer (mkDetection thresholdsRule (mkRat 3 10)).category
      = "Commercial Execution" := by decide
  rw [h5] at h4
  exact h4

/-- C7 (amended): a category that is neither one of the canonical layer
names nor (lower-cased, trimmed) a key of the static lookup — including the
empty and defaulted-"Unknown" categories — routes to the fixed default
layer "Commercial Execution"; a category equal to a canonical layer name
passes through verbatim; in every case the routed layer is one of the 7
canonical layers, never an "unknown" bucket. -/
theorem C7_default_layer (category : String) :
    (map_category_to_layer category ∈ CANONICAL_LAYER_ORDER) ∧
    (category ∈ CANONICAL_LAYER_ORDER → map_category_to_layer category = category) ∧
    (category ∉ CANONICAL_LAYER_ORDER →
      lookupAssoc CATEGORY_TO_LAYER (strLower (strTrim category)) = none →
      map_category_to_layer category = "Commercial Execution") := by
  refine ⟨map_category_mem_canonical category, ?_, ?_⟩
  · intro h
    rw [map_category_to_layer]
    have hne : ¬ strLower (strTrim category) = "" := by
      have hall : ∀ x ∈ CANONICAL_LAYER_ORDER, ¬ strLower (strTrim x) = "" := by decide
      exact hall category h
    rw [if_neg hne, if_pos h]
  · intro h2 h3
    rw [map_category_to_layer]
    by_cases h1 : strLower (strTrim category) = ""
    · rw [if_pos h1]
    · rw [if_neg h1, if_neg h2, h3, Option.getD_none]

theorem C7_witness :
    map_category_to_layer "Unknown" = "Commercial Execution" ∧
    map_category_to_layer "Unknown" ∈ CANONICAL_LAYER_ORDER := by
  obtain ⟨h1, -, h3⟩ := C7_default_layer "Unknown"
  exact ⟨h3 (by decide) (by decide), h1⟩

/-- A rule whose category is the canonical layer name "Guest Data & CRM",
which has no entry in `CATEGORY_TO_LAYER`. -/
def gdcrmRule : Rule :=
  { vendor := some "V", category := some "Guest Data & CRM"
    patterns :=
      [{ ptype := some "domain_contains", value := some "x.example", weight := mkRat 6 10 }] }

def gdcrmSig : Signals := { asset_domains := ["x.example"] }

/-- C7 counterexample: the category "Guest Data & CRM" has no entry in the
static category-to-layer lookup, yet its detection is routed to the
"Guest Data & CRM" layer (the name passes through verbatim), not to the
fixed default layer — so unmapped categories do not all route to one fixed
default layer. -/
theorem C7_counterexample :
    lookupAssoc CATEGORY_TO_LAYER (strLower (strTrim "Guest Data & CRM")) = none ∧
    (layerList (detect_tools_from_signals regexNever [gdcrmRule] gdcrmSig).2
        "Guest Data & CRM").length = 1 ∧
    layerList (detect_tools_from_signals regexNever [gdcrmRule] gdcrmSig).2
        "Commercial Execution" = [] := by decide

/-- The Duetto scenario rule and signals from the specification. -/
def duettoRule : Rule :=
  { vendor := some "Duetto", category := some "rms"
    patterns :=
      [{ ptype := some "domain_contains", value := some "duetto.com", weight := mkRat 9 10 }] }

def duettoSig : Signals := { asset_domains := ["duetto.com"] }

def duettoDet : Detection :=
  ⟨"Duetto", "Unknown", "rms", mkRat 9 10, "confirmed", "public_signal"⟩

/-- C5 (amended): on `assetDomains = ["duetto.com"]` with the single Duetto
rule of weight 0.9, the detector emits exactly one detection — vendor
"Duetto", confidence 0.9 — and routes it to "Core Systems" and to no other
layer; but since 0.9 ≥ 0.85 its label is "confirmed", not "probable". -/
theorem C5_duetto_scenario :
    (detect_tools_from_signals regexNever [duettoRule] duettoSig).1 = [duettoDet] ∧
    layerList (detect_tools_from_signals regexNever [duettoRule] duettoSig).2 "Core Systems"
        = [duettoDet] ∧
    (((detect_tools_from_signals regexNever [duettoRule] duettoSig).2.filter
        fun kv => !kv.2.isEmpty).map Prod.fst) = ["Core Systems"] ∧
    duettoDet.confidence = mkRat 9 10 ∧ duettoDet.label = "confirmed" := by decide

/-- C5 counterexample: in the specification's scenario the emitted label is
"confirmed" (0.9 ≥ 0.85), not "probable" as the claim states. -/
theorem C5_counterexample :
    (detect_tools_from_signals regexNever [duettoRule] duettoSig).1.map Detection.label
        = ["confirmed"] ∧
    ("confirmed" : String) ≠ "probable" := by decide

/-! ## Theorems about the /analyze pipeline -/

theorem lookupAssoc_append_left {α : Type} (m m2 : List (String × α)) (l : String) (v : α)
    (h : lookupAssoc m l = some v) : lookupAssoc (m ++ m2) l = some v := by
  induction m with
  | nil => rw [lookupAssoc] at h; simp at h
  | cons kv t ih =>
    rw [List.cons_append, lookupAssoc_cons]
    rw [lookupAssoc_cons] at h
    by_cases hl : kv.1 = l
    · rw [if_pos hl]
      rw [if_pos hl] at h
      exact h
    · rw [if_neg hl]
      rw [if_neg hl] at h
      exact ih h

theorem lookupAssoc_append_right {α : Type} (m m2 : List (String × α)) (l : String)
    (h : lookupAssoc m l = none) : lookupAssoc (m ++ m2) l = lookupAssoc m2 l := by
  induction m with
  | nil => rfl
  | cons kv t ih =>
    rw [List.cons_append, lookupAssoc_cons]
    rw [lookupAssoc_cons] at h
    by_cases hl : kv.1 = l
    · rw [if_pos hl] at h; simp at h
    · rw [if_neg hl]
      rw [if_neg hl] at h
      exact ih h

theorem key_of_any {α : Type} (m : List (String × α)) (k : String)
    (h : (m.any fun kv => kv.1 == k) = true) : k ∈ m.map Prod.fst := by
  obtain ⟨kv, hkv, hb⟩ := List.any_eq_true.mp h
  exact List.mem_map.mpr ⟨kv, hkv, by simpa using hb⟩

theorem lookupAssoc_none_of_not_any {α : Type} (m : List (String × α)) (k : String)
    (h : (m.any fun kv => kv.1 == k) = false) : lookupAssoc m k = none := by
  rw [lookupAssoc]
  rw [List.find?_eq_none.mpr]
  · rfl
  · intro kv hkv
    intro hb
    rw [List.any_eq_false] at h
    exact h kv hkv hb

theorem setdefaultAppend_mono (m : List (String × List Detection)) (k : String)
    (x d : Detection) (l : String) (h : d ∈ layerList m l) :
    d ∈ layerList (setdefaultAppend m k x) l := by
  rw [setdefaultAppend]
  split
  · rw [layerList_appendAssoc]
    split
    · exact List.mem_append_left _ h
    · exact h
  · obtain ⟨vl, hvl, hdv⟩ : ∃ vl, lookupAssoc m l = some vl ∧ d ∈ vl := by
      cases hl : lookupAssoc m l with
      | none => rw [layerList, hl] at h; simp at h
      | some vl => exact ⟨vl, rfl, by rwa [layerList, hl] at h⟩
    rw [layerList, lookupAssoc_append_left m _ l vl hvl]
    exact hdv

theorem setdefaultAppend_self (m : List (String × List Detection)) (k : String)
    (x : Detection) : x ∈ layerList (setdefaultAppend m k x) k := by
  rw [setdefaultAppend]
  split
  · rename_i hany
    rw [layerList_appendAssoc]
    rw [if_pos ⟨rfl, lookupAssoc_isSome_of_key m k (key_of_any m k hany)⟩]
    exact List.mem_append_right _ (by simp)
  · rename_i hany
    rw [layerList, lookupAssoc_append_right m _ k
      (lookupAssoc_none_of_not_any m k (Bool.eq_false_iff.mpr hany))]
    rw [lookupAssoc_cons]
    simp

theorem inject_layers_mono (m : List (String × List Detection)) (dets : List Detection)
    (v : Option String) (k c p : String) (l : String) (d : Detection)
    (h : d ∈ layerList m l) :
    d ∈ layerList (inject_confirmed_system m dets v k c p).1 l := by
  rw [inject_confirmed_system]
  split
  · exact setdefaultAppend_mono m k _ d l h
  · exact h

theorem inject_dets_mono (m : List (String × List Detection)) (dets : List Detection)
    (v : Option String) (k c p : String) (d : Detection) (h : d ∈ dets) :
    d ∈ (inject_confirmed_system m dets v k c p).2 := by
  rw [inject_confirmed_system]
  split
  · exact List.mem_append_left _ h
  · exact h

theorem inject_some_self (m : List (String × List Detection)) (dets : List Detection)
    (v : String) (hv : v ≠ "") (k c p : String) :
    (⟨v, p, c, mkRat 99 100, "confirmed", "customer_confirmed"⟩ : Detection)
        ∈ layerList (inject_confirmed_system m dets (some v) k c p).1 k ∧
    (inject_confirmed_system m dets (some v) k c p).2
        = dets ++ [⟨v, p, c, mkRat 99 100, "confirmed", "customer_confirmed"⟩] := by
  rw [inject_confirmed_system]
  rw [if_pos (by simp [truthy, hv])]
  exact ⟨setdefaultAppend_self m k _, rfl⟩

theorem lookupAssoc_map_self {α : Type} (L : List String) (f : String → α) (k : String)
    (h : k ∈ L) : lookupAssoc (L.map fun a => (a, f a)) k = some (f k) := by
  induction L with
  | nil => simp at h
  | cons a t ih =>
    rw [List.map_cons, lookupAssoc_cons]
    by_cases ha : a = k
    · rw [if_pos ha, ha]
    · rw [if_neg ha]
      rcases List.mem_cons.mp h with rfl | ht
      · exact absurd rfl ha
      · exact ih ht

theorem layerSummaryFor_detections (imp : String → String × String)
    (likely : String → Option String × Option String)
    (byl : List (String × List Detection)) (layer : String)
    (h : layerList byl layer ≠ []) :
    (layerSummaryFor imp likely byl layer).detections = layerList byl layer := by
  rw [layerSummaryFor]
  rw [if_pos (by simpa [layerList] using h)]
  rfl

theorem injectAll_pms (req : AnalyzeReq) (v : String) (hv : req.pms_vendor = some v)
    (hv2 : v ≠ "") (d0 : List Detection × List (String × List Detection)) :
    (⟨v, "Property Management System", "PMS", mkRat 99 100, "confirmed",
        "customer_confirmed"⟩ : Detection) ∈ (injectAll req d0).2 ∧
    (⟨v, "Property Management System", "PMS", mkRat 99 100, "confirmed",
        "customer_confirmed"⟩ : Detection) ∈ layerList (injectAll req d0).1 "Core Systems" := by
  rw [injectAll, hv]
  obtain ⟨hl1, hd1⟩ := inject_some_self d0.2 d0.1 v hv2
    "Core Systems" "PMS" "Property Management System"
  constructor
  · apply inject_dets_mono
    apply inject_dets_mono
    apply inject_dets_mono
    rw [hd1]
    exact List.mem_append_right _ (by simp)
  · apply inject_layers_mono
    apply inject_layers_mono
    apply inject_layers_mono
    exact hl1

theorem analyzeMainAnalysis_parts (env : AnalyzeEnv) (req : AnalyzeReq) (url : String)
    (signals : CrawlOut) :
    (analyzeMainAnalysis env req url signals).detections
        = (injectAll req (detect_tools_from_signals env.rx env.rules (toSignals signals))).2 ∧
    (analyzeMainAnalysis env req url signals).layers
        = build_layer_summary env.imp env.likely
            (injectAll req (detect_tools_from_signals env.rx env.rules (toSignals signals))).1 ∧
    (analyzeMainAnalysis env req url signals).scores
        = (match env.scoreOutcome with
           | .ok s => s
           | .error m => ⟨none, [], some ("score_layers failed: " ++ m)⟩) ∧
    (analyzeMainAnalysis env req url signals).opportunity
        = (match env.oppOutcome with
           | .ok o => o
           | .error m => ⟨"", some ("opportunity_model failed: " ++ m)⟩) := by
  rw [analyzeMainAnalysis]
  cases req.competitor_url with
  | none => exact ⟨rfl, rfl, rfl, rfl⟩
  | some curl =>
    cases env.compRaises with
    | none => exact ⟨rfl, rfl, rfl, rfl⟩
    | some e => exact ⟨rfl, rfl, rfl, rfl⟩

theorem analyzeMainAnalysis_comp_failed (env : AnalyzeEnv) (req : AnalyzeReq) (url : String)
    (signals : CrawlOut) (cu ec : String) (hcu : req.competitor_url = some cu)
    (hec : env.compRaises = some ec) :
    (analyzeMainAnalysis env req url signals).comparison
        = some (ComparisonRes.failed "competitor_scan_failed") := by
  rw [analyzeMainAnalysis, hcu, hec]

theorem analyze_no_pages (env : AnalyzeEnv) (req : AnalyzeReq)
    (hpages : (crawl_site_signals env.net (normalise_url req.url)).pages = []) :
    analyze env req
      = fallback_response env ⟨"crawl_failed", "No pages fetched.", ""⟩
          (normalise_url req.url) := by
  simp only [analyze]
  rw [if_pos hpages]

theorem analyze_main_analysis (env : AnalyzeEnv) (req : AnalyzeReq)
    (hpages : (crawl_site_signals env.net (normalise_url req.url)).pages ≠ [])
    (hren : env.renderOutcome = RenderRes.typeErr →
      ∃ s, env.renderRetryOutcome = Except.ok s) :
    (analyze env req).analysis
      = analyzeMainAnalysis env req (normalise_url req.url)
          (crawl_site_signals env.net (normalise_url req.url)) := by
  simp only [analyze]
  rw [if_neg hpages]
  cases hr : env.renderOutcome with
  | ok s => rfl
  | exc m => rfl
  | typeErr =>
    obtain ⟨s, hs⟩ := hren hr
    rw [hs]

/-- C4 (amended): whenever the operator supplies a property-management
vendor name and the crawl fetched at least one page (on a failed crawl the
endpoint falls back to an empty-detections response instead), a detection
with confidence 0.99 — not 1.0 — label "confirmed" and source
"customer_confirmed" is injected into the returned detections and into the
"Core Systems" layer of the summary, independent of the rule set and of
every public signal. -/
theorem C4_confirmed_pms (env : AnalyzeEnv) (req : AnalyzeReq) (v : String)
    (hv : req.pms_vendor = some v) (hv2 : v ≠ "")
    (hpages : (crawl_site_signals env.net (normalise_url req.url)).pages ≠ [])
    (hren : env.renderOutcome = RenderRes.typeErr →
      ∃ s, env.renderRetryOutcome = Except.ok s) :
    (⟨v, "Property Management System", "PMS", mkRat 99 100, "confirmed",
        "customer_confirmed"⟩ : Detection)
        ∈ (analyze env req).analysis.detections ∧
    ∃ summ : LayerSummary,
      lookupAssoc (analyze env req).analysis.layers "Core Systems" = some summ ∧
      (⟨v, "Property Management System", "PMS", mkRat 99 100, "confirmed",
          "customer_confirmed"⟩ : Detection) ∈ summ.detections := by
  rw [analyze_main_analysis env req hpages hren]
  obtain ⟨hdet, hlay, -, -⟩ := analyzeMainAnalysis_parts env req (normalise_url req.url)
    (crawl_site_signals env.net (normalise_url req.url))
  rw [hdet, hlay]
  obtain ⟨hd, hl⟩ := injectAll_pms req v hv hv2
    (detect_tools_from_signals env.rx env.rules
      (toSignals (crawl_site_signals env.net (normalise_url req.url))))
  refine ⟨hd, layerSummaryFor env.imp env.likely
    (injectAll req (detect_tools_from_signals env.rx env.rules
      (toSignals (crawl_site_signals env.net (normalise_url req.url))))).1 "Core Systems",
    ?_, ?_⟩
  · rw [build_layer_summary]
    exact lookupAssoc_map_self _ _ _ (by decide)
  · rw [layerSummaryFor_detections _ _ _ _ (List.ne_nil_of_mem hl)]
    exact hl

def okNet : Network := fun u => FetchOutcome.ok u 200 "text/html" none [] [] []

/-- An environment where every collaborator call succeeds. -/
def okEnv : AnalyzeEnv :=
  { net := okNet, compNet := okNet, rules := [], rx := regexNever
    imp := fun _ => ("Medium", ""), likely := fun _ => (none, none)
    scoreOutcome := Except.ok ⟨none, [], none⟩
    oppOutcome := Except.ok {}
    renderOutcome := RenderRes.ok "report" }

def pmsReq : AnalyzeReq := { url := "https://h.example", pms_vendor := some "Opera" }

def failEnv : AnalyzeEnv := { okEnv with net := timeoutNet }

/-- C4 counterexample: with an operator-supplied PMS vendor, the injected
detection carries confidence 0.99 — there is no confidence-1.0 detection in
the response; and when the crawl fails (here: home times out) the fallback
response carries no detection at all, so the injection is not independent
of the crawl outcome. -/
theorem C4_counterexample :
    ((analyze okEnv pmsReq).analysis.detections.map Detection.confidence
        = [mkRat 99 100]) ∧
    ¬ (mkRat 99 100 = (1 : ℚ)) ∧
    ((analyze failEnv pmsReq).analysis.detections = []) ∧
    (((analyze failEnv pmsReq).analysis.layers.all fun kv => kv.2.detections.isEmpty)
        = true) := by decide

theorem C4_witness :
    (⟨"Opera", "Property Management System", "PMS", mkRat 99 100, "confirmed",
        "customer_confirmed"⟩ : Detection) ∈ (analyze okEnv pmsReq).analysis.detections ∧
    ∃ summ : LayerSummary,
      lookupAssoc (analyze okEnv pmsReq).analysis.layers "Core Systems" = some summ ∧
      (⟨"Opera", "Property Management System", "PMS", mkRat 99 100, "confirmed",
          "customer_confirmed"⟩ : Detection) ∈ summ.detections :=
  C4_confirmed_pms okEnv pmsReq "Opera" rfl (by decide) (by decide)
    (fun h => absurd h (by decide))

theorem analyze_report_exc (env : AnalyzeEnv) (req : AnalyzeReq) (m : String)
    (hpages : (crawl_site_signals env.net (normalise_url req.url)).pages ≠ [])
    (hr : env.renderOutcome = RenderRes.exc m) :
    (analyze env req).report_md = renderErrMd m := by
  simp only [analyze]
  rw [if_neg hpages, hr]

theorem renderErrMd_ne_empty (m : String) : renderErrMd m ≠ "" := by
  intro h
  have h2 : (renderErrMd m).length = 0 := by rw [h]; rfl
  rw [renderErrMd, String.length_append, String.length_append] at h2
  have h3 : ("\n" : String).length = 1 := rfl
  rw [h3] at h2
  omega

/-- C10: `/analyze` is a total function of the observed environment — no
exception escapes it — and degrades structurally: when the crawl yields no
pages it answers with the fallback analysis that records the crawl error
(with the hard-coded markdown when even the fallback render raises), and
when scoring, the opportunity model, report rendering and the competitor
scan all raise, it still answers, recording each failure in the scores
object, the opportunity object and the comparison slot, with the
error-report markdown. -/
theorem C10_analyze_never_raises (env1 env2 : AnalyzeEnv) (req1 req2 : AnalyzeReq)
    (cu es eo er ec efb : String)
    (hA : (crawl_site_signals env2.net (normalise_url req2.url)).pages = [])
    (hA2 : env2.renderFallbackOutcome = Except.error efb)
    (hB1 : (crawl_site_signals env1.net (normalise_url req1.url)).pages ≠ [])
    (hB2 : env1.scoreOutcome = Except.error es)
    (hB3 : env1.oppOutcome = Except.error eo)
    (hB4 : env1.renderOutcome = RenderRes.exc er)
    (hB5 : req1.competitor_url = some cu)
    (hB6 : env1.compRaises = some ec) :
    ((analyze env2 req2).analysis.error = some ⟨"crawl_failed", "No pages fetched.", ""⟩ ∧
     (analyze env2 req2).analysis.evidence.crawl_errors
        = [⟨"crawl_failed", "No pages fetched.", ""⟩] ∧
     (analyze env2 req2).analysis.detections = [] ∧
     (analyze env2 req2).report_md = FALLBACK_REPORT_MD ∧ FALLBACK_REPORT_MD ≠ "") ∧
    ((analyze env1 req1).analysis.scores.error = some ("score_layers failed: " ++ es) ∧
     (analyze env1 req1).analysis.opportunity.error
        = some ("opportunity_model failed: " ++ eo) ∧
     (analyze env1 req1).analysis.comparison
        = some (ComparisonRes.failed "competitor_scan_failed") ∧
     (analyze env1 req1).report_md = renderErrMd er ∧ renderErrMd er ≠ "") := by
  have hren1 : env1.renderOutcome = RenderRes.typeErr →
      ∃ s, env1.renderRetryOutcome = Except.ok s := by
    intro h
    rw [hB4] at h
    exact absurd h (by simp)
  constructor
  · rw [analyze_no_pages env2 req2 hA]
    refine ⟨rfl, rfl, rfl, ?_, by decide⟩
    simp only [fallback_response, hA2]
  · obtain ⟨-, -, hsc, hop⟩ := analyzeMainAnalysis_parts env1 req1 (normalise_url req1.url)
      (crawl_site_signals env1.net (normalise_url req1.url))
    rw [hB2] at hsc
    rw [hB3] at hop
    refine ⟨?_, ?_, ?_, analyze_report_exc env1 req1 er hB1 hB4, renderErrMd_ne_empty er⟩
    · rw [analyze_main_analysis env1 req1 hB1 hren1, hsc]
    · rw [analyze_main_analysis env1 req1 hB1 hren1, hop]
    · rw [analyze_main_analysis env1 req1 hB1 hren1]
      exact analyzeMainAnalysis_comp_failed env1 req1 _ _ cu ec hB5 hB6

def failStepsEnv : AnalyzeEnv :=
  { okEnv with
    scoreOutcome := Except.error "boom-score"
    oppOutcome := Except.error "boom-opp"
    renderOutcome := RenderRes.exc "boom-render"
    compRaises := some "boom-comp" }

def compReq : AnalyzeReq :=
  { url := "https://h.example", competitor_url := some "https://c.example" }

def fallbackFailEnv : AnalyzeEnv :=
  { failEnv with renderFallbackOutcome := Except.error "boom-fallback" }

theorem C10_witness :
    ((analyze fallbackFailEnv pmsReq).analysis.error
        = some ⟨"crawl_failed", "No pages fetched.", ""⟩ ∧
     (analyze fallbackFailEnv pmsReq).analysis.evidence.crawl_errors
        = [⟨"crawl_failed", "No pages fetched.", ""⟩] ∧
     (analyze fallbackFailEnv pmsReq).analysis.detections = [] ∧
     (analyze fallbackFailEnv pmsReq).report_md = FALLBACK_REPORT_MD ∧
     FALLBACK_REPORT_MD ≠ "") ∧
    ((analyze failStepsEnv compReq).analysis.scores.error
        = some ("score_layers failed: " ++ "boom-score") ∧
     (analyze failStepsEnv compReq).analysis.opportunity.error
        = some ("opportunity_model failed: " ++ "boom-opp") ∧
     (analyze failStepsEnv compReq).analysis.comparison
        = some (ComparisonRes.failed "competitor_scan_failed") ∧
     (analyze failStepsEnv compReq).report_md = renderErrMd "boom-render" ∧
     renderErrMd "boom-render" ≠ "") :=
  C10_analyze_never_raises failStepsEnv fallbackFailEnv compReq pmsReq
    "https://c.example" "boom-score" "boom-opp" "boom-render" "boom-comp" "boom-fallback"
    (by decide) rfl (by decide) rfl rfl rfl rfl rfl

end HotelTech
